import Mathlib

/-!
Shallow embedding of the Mobile Phone Distribution System core
(inventory controller, purchase-invoice model, DSR assignment controller
and models), with theorems settling the frozen claims about it.

Sources embedded:
- PurchaseInvoice schema and its pre-save financial recompute hook
- inventoryController: createPurchaseInvoice, updateInvoice,
  uploadInvoiceProof, verifyInvoice, deleteInvoice, updatePhoneStatus,
  updatePhone, deletePhone
- inventoryService.isIMEIDuplicate
- DsrAssignment schema pre-save hook, canReturn, assignedPhonesCount
- dsrAssignmentController: createAssignment, markPhoneAsSold, returnPhones
-/

namespace MPDS

/-- Ledger phone unit status (PurchaseInvoice schema `phones.status` enum). -/
inductive PhoneStatus
  | Available | Assigned | Reserved | Sold | Returned | Damaged | Transit
deriving DecidableEq, Repr

/-- Invoice status (`invoiceStatus` enum). -/
inductive InvStatus
  | Draft | Verified | Completed | Cancelled
deriving DecidableEq, Repr

/-- Per-assignment phone outcome status (DsrAssignment `phones.status` enum). -/
inductive AsgPhoneStatus
  | Assigned | Sold | Returned
deriving DecidableEq, Repr

/-- Assignment-level derived status (DsrAssignment `status` enum). -/
inductive AsgStatus
  | Active | PartiallyReturned | FullyReturned | Completed
deriving DecidableEq, Repr

/-- A phone unit embedded in its purchase invoice. -/
structure Phone where
  imei : String
  costPrice : Int
  sellingPrice : Int
  status : PhoneStatus := .Available
  soldDate : Option Nat := none
deriving DecidableEq, Repr

/-- Invoice financial aggregate (`financials` subdocument). -/
structure Financials where
  subtotal : Int := 0
  taxAmount : Int := 0
  discountAmount : Int := 0
  shippingCost : Int := 0
  totalCost : Int := 0
  totalSellingPrice : Int := 0
deriving DecidableEq, Repr

/-- A purchase invoice document. -/
structure Invoice where
  invoiceNumber : String
  phones : List Phone
  financials : Financials := {}
  paidAmount : Int := 0
  pendingAmount : Int := 0
  invoiceStatus : InvStatus := .Draft
  proofUrl : Option String := none
deriving DecidableEq, Repr

/-- The error object produced by the HTTP error class: a status code and a message. -/
structure ApiError where
  statusCode : Nat
  message : String
deriving DecidableEq, Repr

def sumCost (ps : List Phone) : Int := (ps.map Phone.costPrice).sum

def sumSelling (ps : List Phone) : Int := (ps.map Phone.sellingPrice).sum

/-- The purchaseInvoiceSchema pre-save hook: recomputes subtotal, totalCost,
totalSellingPrice and the pending payment from the current phone list. -/
def invoicePreSave (inv : Invoice) : Invoice :=
  let subtotal := sumCost inv.phones
  let totalCost := subtotal + inv.financials.taxAmount
      + inv.financials.shippingCost - inv.financials.discountAmount
  let totalSellingPrice := sumSelling inv.phones
  { inv with
    financials := { inv.financials with
      subtotal := subtotal
      totalCost := totalCost
      totalSellingPrice := totalSellingPrice }
    pendingAmount := totalCost - inv.paidAmount }

/-- `invoice.hasIMEI`: whether some phone in the invoice carries the imei. -/
def hasIMEI (inv : Invoice) (imei : String) : Bool :=
  inv.phones.any (fun p => p.imei == imei)

/-- `invoice.getPhoneByIMEI`: the first phone in the invoice with the imei. -/
def getPhoneByIMEI (inv : Invoice) (imei : String) : Option Phone :=
  inv.phones.find? (fun p => p.imei == imei)

/-- `PurchaseInvoice.findOne(\x7b "phones.imei": imei \x7d)`: the first invoice
in the collection containing a phone with the imei. -/
def findInvoiceByImei (ledger : List Invoice) (imei : String) : Option Invoice :=
  ledger.find? (fun inv => hasIMEI inv imei)

/-- The ledger status of an imei: status of the first matching phone of the
first invoice containing it (the document/subdocument `findOne`/`find` pair). -/
def lookupStatus (ledger : List Invoice) (imei : String) : Option PhoneStatus :=
  (findInvoiceByImei ledger imei).bind fun inv =>
    (getPhoneByIMEI inv imei).map Phone.status

/-- In-place mutation of the first phone matching the imei (the JS
`phones.find(...)` followed by field assignments on the found subdocument). -/
def updateFirstPhone (imei : String) (f : Phone → Phone) : List Phone → List Phone
  | [] => []
  | p :: rest =>
    if p.imei == imei then f p :: rest else p :: updateFirstPhone imei f rest

/-- Persisting a mutated document: replace the first invoice matching the
predicate (the one `findOne` returned) by its transformed version. -/
def updateWhere (q : Invoice → Bool) (f : Invoice → Invoice) :
    List Invoice → List Invoice
  | [] => []
  | i :: rest => if q i then f i :: rest else i :: updateWhere q f rest

/-- `deleteOne`: remove the first invoice matching the predicate. -/
def removeWhere (q : Invoice → Bool) : List Invoice → List Invoice
  | [] => []
  | i :: rest => if q i then rest else i :: removeWhere q rest

/-- Mutate one phone subdocument (found by imei) inside its owning invoice and
save that invoice (`phone.status = ...; await invoice.save()`): the pre-save
hook recomputes the financial aggregate. -/
def saveUnitUpdate (imei : String) (f : Phone → Phone) (ledger : List Invoice) :
    List Invoice :=
  updateWhere (fun i => hasIMEI i imei)
    (fun i => invoicePreSave { i with phones := updateFirstPhone imei f i.phones })
    ledger

/-- `InventoryService.isIMEIDuplicate`: does any invoice contain the imei. -/
def isIMEIDuplicate (ledger : List Invoice) (imei : String) : Bool :=
  (findInvoiceByImei ledger imei).isSome

/-- The body of a purchase-invoice creation request. -/
structure NewInvoiceReq where
  invoiceNumber : String
  phones : List Phone
  financials : Financials := {}
  paidAmount : Int := 0
deriving DecidableEq, Repr

/-- inventoryController.createPurchaseInvoice: reject a duplicate invoice
number, reject the first request phone whose imei already exists anywhere in
the collection, otherwise create the Draft invoice (Mongoose `create` runs
the pre-save financial recompute). -/
def createPurchaseInvoice (ledger : List Invoice) (req : NewInvoiceReq) :
    Except ApiError (List Invoice) :=
  if ledger.any (fun i => i.invoiceNumber == req.invoiceNumber) then
    .error ⟨400, "Invoice number already exists"⟩
  else
    match req.phones.find? (fun p => isIMEIDuplicate ledger p.imei) with
    | some p => .error ⟨400, "IMEI " ++ p.imei ++ " already exists in inventory"⟩
    | none =>
      let inv := invoicePreSave
        { invoiceNumber := req.invoiceNumber
          phones := req.phones
          financials := req.financials
          paidAmount := req.paidAmount
          invoiceStatus := .Draft
          proofUrl := none }
      .ok (ledger ++ [inv])

/-- The patch body of an invoice edit request (`...req.body` spread). A field
that is `none` is absent from the request and keeps its stored value. -/
structure InvoicePatch where
  phones : Option (List Phone) := none
  financials : Option Financials := none
  paidAmount : Option Int := none
deriving DecidableEq, Repr

/-- inventoryController.updateInvoice: only Draft invoices with every phone
still Available may be edited; the edit is a `findByIdAndUpdate` carrying
`...req.body` with `invoiceStatus` forced back to Draft. `findByIdAndUpdate`
does NOT run the pre-save hook, so the financial aggregate is not recomputed
on this path. -/
def updateInvoice (ledger : List Invoice) (id : String) (patch : InvoicePatch) :
    Except ApiError (List Invoice) :=
  match ledger.find? (fun i => i.invoiceNumber == id) with
  | none => .error ⟨404, "Invoice not found"⟩
  | some inv =>
    if inv.invoiceStatus = .Draft then
      if inv.phones.any (fun p => !(p.status == .Available)) then
        .error ⟨400, "Cannot edit invoice. Some phones are already assigned."⟩
      else
        .ok (updateWhere (fun i => i.invoiceNumber == id)
          (fun i =>
            { i with
              phones := patch.phones.getD i.phones
              financials := patch.financials.getD i.financials
              paidAmount := patch.paidAmount.getD i.paidAmount
              invoiceStatus := .Draft })
          ledger)
    else
      .error ⟨400, "Cannot edit invoice. Only Draft invoices can be edited."⟩

/-- inventoryController.uploadInvoiceProof: store the object-storage reference
on the invoice and save it (the save runs the pre-save recompute). -/
def uploadInvoiceProof (ledger : List Invoice) (id : String) (url : String) :
    Except ApiError (List Invoice) :=
  match ledger.find? (fun i => i.invoiceNumber == id) with
  | none => .error ⟨404, "Invoice not found"⟩
  | some _ =>
    .ok (updateWhere (fun i => i.invoiceNumber == id)
      (fun i => invoicePreSave { i with proofUrl := some url }) ledger)

/-- The JS truthiness test `invoice.invoiceProof && invoice.invoiceProof.url`:
a proof is attached when a non-empty url reference is stored. -/
def proofAttached (inv : Invoice) : Bool :=
  match inv.proofUrl with
  | some url => !(url == "")
  | none => false

/-- inventoryController.verifyInvoice: only a Draft invoice with a proof
reference attached can be verified; verification sets the status to Verified
and saves. -/
def verifyInvoice (ledger : List Invoice) (id : String) :
    Except ApiError (List Invoice) :=
  match ledger.find? (fun i => i.invoiceNumber == id) with
  | none => .error ⟨404, "Invoice not found"⟩
  | some inv =>
    if inv.invoiceStatus = .Draft then
      if proofAttached inv then
        .ok (updateWhere (fun i => i.invoiceNumber == id)
          (fun i => invoicePreSave { i with invoiceStatus := .Verified }) ledger)
      else
        .error ⟨400, "Invoice proof image is required for verification. Please upload invoice proof first."⟩
    else
      .error ⟨400, "Invoice is already processed. Cannot verify."⟩

/-- inventoryController.deleteInvoice: a Draft invoice with every phone still
Available is soft-deleted by setting its status to Cancelled and saving. -/
def deleteInvoice (ledger : List Invoice) (id : String) :
    Except ApiError (List Invoice) :=
  match ledger.find? (fun i => i.invoiceNumber == id) with
  | none => .error ⟨404, "Invoice not found"⟩
  | some inv =>
    if inv.invoiceStatus = .Draft then
      if inv.phones.any (fun p => !(p.status == .Available)) then
        .error ⟨400, "Cannot delete invoice. Some phones are already assigned or sold."⟩
      else
        .ok (updateWhere (fun i => i.invoiceNumber == id)
          (fun i => invoicePreSave { i with invoiceStatus := .Cancelled }) ledger)
    else
      .error ⟨400, "Cannot delete non-Draft invoice. Only Draft invoices can be deleted."⟩

/-- inventoryController.updatePhoneStatus / invoice.updatePhoneStatus method:
set the status of the phone found by imei (recording the sold date when the
new status is Sold) and save the invoice. -/
def updatePhoneStatus (ledger : List Invoice) (imei : String)
    (newStatus : PhoneStatus) (soldDate : Option Nat) (now : Nat) :
    Except ApiError (List Invoice) :=
  match findInvoiceByImei ledger imei with
  | none => .error ⟨404, "Phone with this IMEI not found"⟩
  | some _ =>
    .ok (saveUnitUpdate imei
      (fun p =>
        if newStatus = .Sold then
          { p with status := newStatus, soldDate := some (soldDate.getD now) }
        else
          { p with status := newStatus })
      ledger)

/-- The patch body of a phone edit request. -/
structure PhonePatch where
  costPrice : Option Int := none
  sellingPrice : Option Int := none
deriving DecidableEq, Repr

/-- inventoryController.updatePhone: editable only while the phone is
Available or Damaged; applies the provided fields and saves the invoice. -/
def updatePhone (ledger : List Invoice) (imei : String) (patch : PhonePatch) :
    Except ApiError (List Invoice) :=
  match findInvoiceByImei ledger imei with
  | none => .error ⟨404, "Phone with this IMEI not found"⟩
  | some inv =>
    match getPhoneByIMEI inv imei with
    | none => .error ⟨500, "TypeError"⟩
    | some phone =>
      if phone.status = .Available ∨ phone.status = .Damaged then
        .ok (saveUnitUpdate imei
          (fun p =>
            { p with
              costPrice := patch.costPrice.getD p.costPrice
              sellingPrice := patch.sellingPrice.getD p.sellingPrice })
          ledger)
      else
        .error ⟨400, "Cannot edit phone with this status"⟩

/-- inventoryController.deletePhone: only an Available phone may be deleted;
the phone is filtered out of its invoice, and when no phone remains the whole
invoice document is deleted, otherwise the invoice is saved. -/
def deletePhone (ledger : List Invoice) (imei : String) :
    Except ApiError (List Invoice) :=
  match findInvoiceByImei ledger imei with
  | none => .error ⟨404, "Phone with this IMEI not found"⟩
  | some inv =>
    match getPhoneByIMEI inv imei with
    | none => .error ⟨500, "TypeError"⟩
    | some phone =>
      if phone.status = .Available then
        let remaining := inv.phones.filter (fun p => !(p.imei == imei))
        if remaining.isEmpty then
          .ok (removeWhere (fun i => i.invoiceNumber == inv.invoiceNumber) ledger)
        else
          .ok (updateWhere (fun i => i.invoiceNumber == inv.invoiceNumber)
            (fun i => invoicePreSave { i with phones := i.phones.filter (fun p => !(p.imei == imei)) })
            ledger)
      else
        .error ⟨400, "Cannot delete phone with this status. Only Available phones can be deleted."⟩

/-! ### DSR assignment model -/

/-- A phone snapshot inside a DSR assignment. -/
structure AsgPhone where
  invoiceNumber : String
  imei : String
  assignedPrice : Int
  targetPrice : Int
  status : AsgPhoneStatus := .Assigned
  soldDate : Option Nat := none
  soldPrice : Option Int := none
  returnedDate : Option Nat := none
  returnNotes : Option String := none
deriving DecidableEq, Repr

/-- A DSR assignment document. The aggregate fields are recomputed by the
pre-save hook. -/
structure Assignment where
  phones : List AsgPhone
  status : AsgStatus := .Active
  totalPhones : Nat := 0
  totalValue : Int := 0
  totalTargetRevenue : Int := 0
  soldPhones : Nat := 0
  soldRevenue : Int := 0
  returnedPhones : Nat := 0
  returnDate : Option Nat := none
  returnNotes : Option String := none
deriving DecidableEq, Repr

/-- dsrAssignmentSchema pre-save hook: recompute the counters and the derived
assignment status from the phone outcome mix. -/
def asgPreSave (a : Assignment) : Assignment :=
  let totalPhones := a.phones.length
  let totalValue := (a.phones.map AsgPhone.assignedPrice).sum
  let totalTargetRevenue := (a.phones.map AsgPhone.targetPrice).sum
  let soldList := a.phones.filter (fun p => p.status == .Sold)
  let soldPhones := soldList.length
  let soldRevenue := (soldList.map (fun p => p.soldPrice.getD 0)).sum
  let returnedPhones := (a.phones.filter (fun p => p.status == .Returned)).length
  let status :=
    if returnedPhones = totalPhones then AsgStatus.FullyReturned
    else if returnedPhones > 0 ∨ soldPhones > 0 then AsgStatus.PartiallyReturned
    else AsgStatus.Active
  { a with
    totalPhones := totalPhones
    totalValue := totalValue
    totalTargetRevenue := totalTargetRevenue
    soldPhones := soldPhones
    soldRevenue := soldRevenue
    returnedPhones := returnedPhones
    status := status }

/-- Virtual `assignedPhonesCount`: live count of still-Assigned phones. -/
def assignedPhonesCount (a : Assignment) : Nat :=
  (a.phones.filter (fun p => p.status == .Assigned)).length

/-- `assignment.canReturn()`: some phone is still Assigned, or the stored
soldPhones counter is positive. -/
def canReturn (a : Assignment) : Bool :=
  decide (0 < assignedPhonesCount a) || decide (0 < a.soldPhones)

/-- Schedule performance counters. -/
structure Performance where
  phonesAssigned : Nat := 0
  phonesSold : Nat := 0
  phonesReturned : Nat := 0
  revenue : Int := 0
  profit : Int := 0
deriving DecidableEq, Repr

/-- The slice of a DSR schedule the assignment engine touches: whether an
assignment back-reference is already set, and the performance counters. -/
structure Schedule where
  hasAssignment : Bool := false
  performance : Performance := {}
deriving DecidableEq, Repr

/-- One entry of the `phones` array of an assignment-creation request. -/
structure PhoneReq where
  imei : String
  targetPrice : Option Int := none
deriving DecidableEq, Repr

/-- The snapshot pushed into `phoneDetails` for one assigned phone
(`targetPrice: targetPrice || phone.sellingPrice` — JS falsy fallback). -/
def mkAsgPhone (inv : Invoice) (p : Phone) (r : PhoneReq) : AsgPhone :=
  { invoiceNumber := inv.invoiceNumber
    imei := p.imei
    assignedPrice := p.costPrice
    targetPrice :=
      match r.targetPrice with
      | some t => if t = 0 then p.sellingPrice else t
      | none => p.sellingPrice
    status := .Assigned }

/-- The per-phone loop of createAssignment: each requested phone is looked up,
checked Available, flipped to Assigned and its invoice saved IMMEDIATELY; a
later failure returns the already-mutated ledger. -/
def assignPhones (ledger : List Invoice) (reqs : List PhoneReq)
    (acc : List AsgPhone) : List Invoice × Except ApiError (List AsgPhone) :=
  match reqs with
  | [] => (ledger, .ok acc)
  | r :: rest =>
    match findInvoiceByImei ledger r.imei with
    | none =>
      (ledger, .error ⟨404, "Phone with IMEI " ++ r.imei ++ " not found in inventory"⟩)
    | some inv =>
      match getPhoneByIMEI inv r.imei with
      | none => (ledger, .error ⟨404, "Phone with IMEI " ++ r.imei ++ " not found"⟩)
      | some phone =>
        if phone.status = .Available then
          let ledger' := saveUnitUpdate r.imei (fun p => { p with status := .Assigned }) ledger
          assignPhones ledger' rest (acc ++ [mkAsgPhone inv phone r])
        else
          (ledger, .error ⟨400, "Phone with IMEI " ++ r.imei ++ " is not available"⟩)

/-- dsrAssignmentController.createAssignment. `dsrRole` is the looked-up
target user role; `schedule0` is the schedule found for today, auto-created
with defaults when absent. Returns the persisted ledger and schedule state
together with the outcome. -/
def createAssignment (dsrRole : String) (schedule0 : Option Schedule)
    (ledger : List Invoice) (reqs : List PhoneReq) :
    List Invoice × Option Schedule × Except ApiError Assignment :=
  if !(dsrRole == "dsr") then
    (ledger, schedule0, .error ⟨400, "Invalid DSR. User must have DSR role."⟩)
  else
    let sched := schedule0.getD {}
    if sched.hasAssignment then
      (ledger, some sched,
        .error ⟨400, "DSR already has an assignment for today. Please return existing phones first."⟩)
    else
      match assignPhones ledger reqs [] with
      | (ledger', .error e) => (ledger', some sched, .error e)
      | (ledger', .ok asgPhones) =>
        let asg := asgPreSave { phones := asgPhones }
        let sched' :=
          { sched with
            hasAssignment := true
            performance := { sched.performance with phonesAssigned := asgPhones.length } }
        (ledger', some sched', .ok asg)

/-- In-place mutation of the first assignment phone matching the imei. -/
def updateFirstAsgPhone (imei : String) (f : AsgPhone → AsgPhone) :
    List AsgPhone → List AsgPhone
  | [] => []
  | p :: rest =>
    if p.imei == imei then f p :: rest else p :: updateFirstAsgPhone imei f rest

/-- dsrAssignmentController.markPhoneAsSold: requires the assignment phone to
still be Assigned; marks it Sold in the assignment and in the ledger, saves
both, and bumps the linked schedule performance counters. -/
def markPhoneAsSold (asg : Assignment) (ledger : List Invoice)
    (sched : Option Schedule) (imei : String) (soldPrice : Int)
    (soldDate : Option Nat) (now : Nat) :
    Except ApiError (Assignment × List Invoice × Option Schedule) :=
  match asg.phones.find? (fun p => p.imei == imei) with
  | none => .error ⟨404, "Phone with IMEI " ++ imei ++ " not found in this assignment"⟩
  | some phone =>
    if phone.status = .Assigned then
      let sd := soldDate.getD now
      match findInvoiceByImei ledger imei with
      | none => .error ⟨500, "TypeError"⟩
      | some _ =>
        let asg' := asgPreSave
          { asg with
            phones := updateFirstAsgPhone imei
              (fun p => { p with status := .Sold, soldDate := some sd, soldPrice := some soldPrice })
              asg.phones }
        let ledger' := saveUnitUpdate imei
          (fun p => { p with status := .Sold, soldDate := some sd }) ledger
        let sched' := sched.map fun s =>
          { s with performance :=
            { s.performance with
              phonesSold := s.performance.phonesSold + 1
              revenue := s.performance.revenue + soldPrice
              profit := s.performance.profit + (soldPrice - phone.assignedPrice) } }
        .ok (asg', ledger', sched')
    else
      .error ⟨400, "Phone is already resolved. Cannot mark as sold."⟩

/-- The per-imei loop of returnPhones: an imei not found in the assignment or
already Sold or Returned is skipped; an Assigned one is set Returned in the
assignment snapshot and its ledger phone is reset to Available and saved. -/
def returnLoop (asgPhones : List AsgPhone) (ledger : List Invoice)
    (imeis : List String) (notes : String) (now : Nat) (count : Nat) :
    List Invoice × Except ApiError (List AsgPhone × Nat) :=
  match imeis with
  | [] => (ledger, .ok (asgPhones, count))
  | imei :: rest =>
    match asgPhones.find? (fun p => p.imei == imei) with
    | none => returnLoop asgPhones ledger rest notes now count
    | some phone =>
      if phone.status = .Sold ∨ phone.status = .Returned then
        returnLoop asgPhones ledger rest notes now count
      else
        match findInvoiceByImei ledger imei with
        | none => (ledger, .error ⟨500, "TypeError"⟩)
        | some _ =>
          let asgPhones' := updateFirstAsgPhone imei
            (fun p => { p with status := .Returned, returnedDate := some now, returnNotes := some notes })
            asgPhones
          let ledger' := saveUnitUpdate imei (fun p => { p with status := .Available }) ledger
          returnLoop asgPhones' ledger' rest notes now (count + 1)

/-- dsrAssignmentController.returnPhones: rejected up front when
`canReturn()` is false; otherwise each imei is processed independently, the
assignment is saved (recomputing its derived status) and the schedule
phonesReturned counter is bumped by the number actually returned. -/
def returnPhones (asg : Assignment) (ledger : List Invoice)
    (sched : Option Schedule) (imeis : List String) (notes : String)
    (now : Nat) :
    List Invoice × Except ApiError (Assignment × Option Schedule) :=
  if canReturn asg then
    match returnLoop asg.phones ledger imeis notes now 0 with
    | (ledger', .error e) => (ledger', .error e)
    | (ledger', .ok (asgPhones', count)) =>
      let asg' := asgPreSave
        { asg with phones := asgPhones', returnDate := some now, returnNotes := some notes }
      let sched' := sched.map fun s =>
        { s with performance :=
          { s.performance with phonesReturned := s.performance.phonesReturned + count } }
      (ledger', .ok (asg', sched'))
  else
    (ledger, .error ⟨400, "No phones available to return in this assignment"⟩)

/-! ### Ledger-mutating operation alphabet

Every write path of the repository that touches persisted invoices, as one
inductive so that per-operation invariants can be quantified over it. The unit
operations are the ledger-side writes of the assignment engine, each guarded
exactly as its controller guards it. -/

/-- Ledger write of createAssignment for one phone: Available is required,
then the phone is flipped to Assigned and its invoice saved. -/
def assignUnitLedger (ledger : List Invoice) (imei : String) :
    Except ApiError (List Invoice) :=
  match lookupStatus ledger imei with
  | none => .error ⟨404, "Phone with IMEI " ++ imei ++ " not found in inventory"⟩
  | some st =>
    if st = .Available then
      .ok (saveUnitUpdate imei (fun p => { p with status := .Assigned }) ledger)
    else
      .error ⟨400, "Phone with IMEI " ++ imei ++ " is not available"⟩

/-- Ledger write of markPhoneAsSold for the named phone. -/
def sellUnitLedger (ledger : List Invoice) (imei : String) (soldDate : Nat) :
    Except ApiError (List Invoice) :=
  match lookupStatus ledger imei with
  | none => .error ⟨500, "TypeError"⟩
  | some _ =>
    .ok (saveUnitUpdate imei
      (fun p => { p with status := .Sold, soldDate := some soldDate }) ledger)

/-- Ledger write of returnPhones for one returned phone. -/
def returnUnitLedger (ledger : List Invoice) (imei : String) :
    Except ApiError (List Invoice) :=
  match lookupStatus ledger imei with
  | none => .error ⟨500, "TypeError"⟩
  | some _ =>
    .ok (saveUnitUpdate imei (fun p => { p with status := .Available }) ledger)

/-- The repository operations that write the invoices collection. -/
inductive InvoiceOp
  | create (req : NewInvoiceReq)
  | update (id : String) (patch : InvoicePatch)
  | uploadProof (id : String) (url : String)
  | verify (id : String)
  | cancel (id : String)
  | setPhoneStatus (imei : String) (st : PhoneStatus) (soldDate : Option Nat) (now : Nat)
  | editPhone (imei : String) (patch : PhonePatch)
  | removePhone (imei : String)
  | assignUnit (imei : String)
  | sellUnit (imei : String) (soldDate : Nat)
  | returnUnit (imei : String)
deriving DecidableEq

/-- Dispatch an invoice-writing operation to its embedded controller code. -/
def applyInvoiceOp (op : InvoiceOp) (ledger : List Invoice) :
    Except ApiError (List Invoice) :=
  match op with
  | .create req => createPurchaseInvoice ledger req
  | .update id patch => updateInvoice ledger id patch
  | .uploadProof id url => uploadInvoiceProof ledger id url
  | .verify id => verifyInvoice ledger id
  | .cancel id => deleteInvoice ledger id
  | .setPhoneStatus imei st soldDate now => updatePhoneStatus ledger imei st soldDate now
  | .editPhone imei patch => updatePhone ledger imei patch
  | .removePhone imei => deletePhone ledger imei
  | .assignUnit imei => assignUnitLedger ledger imei
  | .sellUnit imei soldDate => sellUnitLedger ledger imei soldDate
  | .returnUnit imei => returnUnitLedger ledger imei

/-- The invoice status stored for an invoice number: status of the first
matching document. -/
def statusOf (ledger : List Invoice) (id : String) : Option InvStatus :=
  (ledger.find? (fun i => i.invoiceNumber == id)).map Invoice.invoiceStatus

/-! ### Two concurrent assignment requests on one imei

In createAssignment the Available check reads the invoice with one `await`ed
query and the Assigned write is a separate `await`ed save; between the two the
event loop may run the other request. Each request is therefore two steps: a
read-and-check step and a write step acting on whatever its earlier check
concluded. -/

/-- One in-flight assignment request for a single imei. -/
structure RaceRequest where
  imei : String
  checked : Option Bool := none
  succeeded : Option Bool := none
deriving DecidableEq, Repr

/-- The read-and-check step: look the phone up and record whether it was
Available (`phone.status !== "Available"` guard). -/
def raceRead (ledger : List Invoice) (r : RaceRequest) : RaceRequest :=
  { r with checked := some (lookupStatus ledger r.imei == some .Available) }

/-- The write step: a request whose earlier check passed writes Assigned into
the ledger and reports success; a request whose check failed reports failure
without writing. -/
def raceWrite (ledger : List Invoice) (r : RaceRequest) :
    List Invoice × RaceRequest :=
  match r.checked with
  | some true =>
    (saveUnitUpdate r.imei (fun p => { p with status := .Assigned }) ledger,
      { r with succeeded := some true })
  | some false => (ledger, { r with succeeded := some false })
  | none => (ledger, r)

/-- Shared store plus the two in-flight requests. -/
structure RaceState where
  ledger : List Invoice
  req1 : RaceRequest
  req2 : RaceRequest
deriving DecidableEq, Repr

/-- One scheduling choice: which request performs which of its two steps. -/
inductive RaceStep
  | read1 | read2 | write1 | write2
deriving DecidableEq, Repr

def raceStep (st : RaceStep) (s : RaceState) : RaceState :=
  match st with
  | .read1 => { s with req1 := raceRead s.ledger s.req1 }
  | .read2 => { s with req2 := raceRead s.ledger s.req2 }
  | .write1 =>
    let (l, r) := raceWrite s.ledger s.req1
    { s with ledger := l, req1 := r }
  | .write2 =>
    let (l, r) := raceWrite s.ledger s.req2
    { s with ledger := l, req2 := r }

/-- Run an interleaving of the two requests. -/
def runRace (steps : List RaceStep) (s : RaceState) : RaceState :=
  steps.foldl (fun s st => raceStep st s) s

/-! ### Concrete fixtures used by witnesses and counterexamples -/

/-- An Available sample unit (the concrete scenario of the spec). -/
def samplePhone : Phone :=
  { imei := "123456789012345", costPrice := 100, sellingPrice := 120 }

/-- A second Available sample unit. -/
def samplePhone2 : Phone :=
  { imei := "222222222222222", costPrice := 50, sellingPrice := 70 }

/-- A sample unit that is already Assigned. -/
def sampleAssignedPhone : Phone :=
  { imei := "333333333333333", costPrice := 80, sellingPrice := 95,
    status := .Assigned }

/-- A freshly created Draft invoice holding the sample unit. -/
def sampleDraft : Invoice :=
  invoicePreSave { invoiceNumber := "INV-001", phones := [samplePhone] }

/-- The sample invoice after a proof upload. -/
def sampleWithProof : Invoice :=
  invoicePreSave { sampleDraft with proofUrl := some "https://bucket/invoices/proof.png" }

/-- A Draft invoice holding one Available and one Assigned unit. -/
def sampleMixed : Invoice :=
  invoicePreSave { invoiceNumber := "INV-002", phones := [samplePhone, sampleAssignedPhone] }

/-- An assignment whose only unit is already Returned (its stored counters
recomputed by the save that persisted the return). -/
def sampleReturnedAsg : Assignment :=
  asgPreSave
    { phones := [{ invoiceNumber := "INV-001", imei := "123456789012345",
                   assignedPrice := 100, targetPrice := 120,
                   status := .Returned }] }

/-- An assignment whose only unit is still Assigned. -/
def sampleActiveAsg : Assignment :=
  asgPreSave
    { phones := [{ invoiceNumber := "INV-001", imei := "123456789012345",
                   assignedPrice := 100, targetPrice := 120,
                   status := .Assigned }] }

/-- A creation request whose imei is fresh with respect to `sampleDraft`. -/
def freshReq : NewInvoiceReq :=
  { invoiceNumber := "INV-009", phones := [samplePhone2] }

/-- A creation request reusing the imei already present in `sampleDraft`. -/
def dupReq : NewInvoiceReq :=
  { invoiceNumber := "INV-010", phones := [samplePhone] }

/-- Cross-invoice imei disjointness: the global uniqueness invariant. -/
def GlobalImeiUnique (ledger : List Invoice) : Prop :=
  ledger.Pairwise fun i1 i2 => ∀ p1 ∈ i1.phones, ∀ p2 ∈ i2.phones, p1.imei ≠ p2.imei

/-- The stored financial aggregate agrees with its recomputation: saving the
invoice changes nothing. -/
def financiallyConsistent (inv : Invoice) : Prop :=
  invoicePreSave inv = inv

/-- The stored document left behind by the stale-aggregate edit example. -/
def staleEdited : Invoice :=
  { invoiceNumber := "INV-001", phones := [samplePhone2],
    financials := { subtotal := 100, totalCost := 100, totalSellingPrice := 120 },
    paidAmount := 0, pendingAmount := 100,
    invoiceStatus := InvStatus.Draft, proofUrl := none }

/-- The stored document left behind by the empty-unit-list edit example. -/
def emptyEdited : Invoice :=
  { invoiceNumber := "INV-001", phones := [],
    financials := { subtotal := 100, totalCost := 100, totalSellingPrice := 120 },
    paidAmount := 0, pendingAmount := 100,
    invoiceStatus := InvStatus.Draft, proofUrl := none }

/-- The per-assignment outcome status recorded for an imei. -/
def statusInAsg (ps : List AsgPhone) (imei : String) : Option AsgPhoneStatus :=
  (ps.find? (fun p => p.imei == imei)).map AsgPhone.status

/-! ### Helper lemmas about the persistence primitives -/

theorem find?_updateFirstPhone_self (imei : String) (f : Phone → Phone)
    (hf : ∀ p, (f p).imei = p.imei) (ps : List Phone) :
    (updateFirstPhone imei f ps).find? (fun p => p.imei == imei)
      = (ps.find? (fun p => p.imei == imei)).map f := by
  induction ps with
  | nil => simp [updateFirstPhone]
  | cons p rest ih =>
    by_cases h : p.imei = imei
    · have h1 : (updateFirstPhone imei f (p :: rest)) = f p :: rest := by
        simp [updateFirstPhone, h]
      rw [h1, List.find?_cons_of_pos _ (by simp [hf, h]),
        List.find?_cons_of_pos _ (by simp [h])]
      rfl
    · have h1 : (updateFirstPhone imei f (p :: rest)) = p :: updateFirstPhone imei f rest := by
        simp [updateFirstPhone, h]
      rw [h1, List.find?_cons_of_neg _ (by simp [h]),
        List.find?_cons_of_neg _ (by simp [h]), ih]

theorem find?_updateFirstPhone_ne (imei x : String) (f : Phone → Phone)
    (hf : ∀ p, (f p).imei = p.imei) (hx : x ≠ imei) (ps : List Phone) :
    (updateFirstPhone imei f ps).find? (fun p => p.imei == x)
      = ps.find? (fun p => p.imei == x) := by
  induction ps with
  | nil => simp [updateFirstPhone]
  | cons p rest ih =>
    by_cases h : p.imei = imei
    · have hpx : ¬ p.imei = x := fun hc => hx (hc ▸ h.symm ▸ rfl)
      have h1 : (updateFirstPhone imei f (p :: rest)) = f p :: rest := by
        simp [updateFirstPhone, h]
      rw [h1, List.find?_cons_of_neg _ (by simp [hf, h, Ne.symm hx]),
        List.find?_cons_of_neg _ (by simpa using hpx)]
    · have h1 : (updateFirstPhone imei f (p :: rest)) = p :: updateFirstPhone imei f rest := by
        simp [updateFirstPhone, h]
      by_cases hpx : p.imei = x
      · rw [h1, List.find?_cons_of_pos _ (by simp [hpx]),
          List.find?_cons_of_pos _ (by simp [hpx])]
      · rw [h1, List.find?_cons_of_neg _ (by simpa using hpx),
          List.find?_cons_of_neg _ (by simpa using hpx), ih]

theorem any_updateFirstPhone (imei x : String) (f : Phone → Phone)
    (hf : ∀ p, (f p).imei = p.imei) (ps : List Phone) :
    (updateFirstPhone imei f ps).any (fun p => p.imei == x)
      = ps.any (fun p => p.imei == x) := by
  induction ps with
  | nil => simp [updateFirstPhone]
  | cons p rest ih =>
    by_cases h : p.imei = imei
    · simp [updateFirstPhone, h, hf]
    · simp only [updateFirstPhone, beq_iff_eq, h, if_false, List.any_cons, ih]

theorem map_updateFirstPhone {α : Type} (g : Phone → α) (imei : String)
    (f : Phone → Phone) (hg : ∀ p, g (f p) = g p) (ps : List Phone) :
    (updateFirstPhone imei f ps).map g = ps.map g := by
  induction ps with
  | nil => simp [updateFirstPhone]
  | cons p rest ih =>
    by_cases h : p.imei = imei
    · simp [updateFirstPhone, h, hg]
    · simp only [updateFirstPhone, beq_iff_eq, h, if_false, List.map_cons, ih]

theorem sumCost_updateFirstPhone (imei : String) (f : Phone → Phone)
    (hf : ∀ p, (f p).costPrice = p.costPrice) (ps : List Phone) :
    sumCost (updateFirstPhone imei f ps) = sumCost ps := by
  unfold sumCost
  rw [map_updateFirstPhone Phone.costPrice imei f hf]

theorem sumSelling_updateFirstPhone (imei : String) (f : Phone → Phone)
    (hf : ∀ p, (f p).sellingPrice = p.sellingPrice) (ps : List Phone) :
    sumSelling (updateFirstPhone imei f ps) = sumSelling ps := by
  unfold sumSelling
  rw [map_updateFirstPhone Phone.sellingPrice imei f hf]

theorem invoicePreSave_phones (inv : Invoice) :
    (invoicePreSave inv).phones = inv.phones := rfl

theorem invoicePreSave_invoiceNumber (inv : Invoice) :
    (invoicePreSave inv).invoiceNumber = inv.invoiceNumber := rfl

theorem invoicePreSave_invoiceStatus (inv : Invoice) :
    (invoicePreSave inv).invoiceStatus = inv.invoiceStatus := rfl

theorem invoicePreSave_proofUrl (inv : Invoice) :
    (invoicePreSave inv).proofUrl = inv.proofUrl := rfl

theorem invoicePreSave_paidAmount (inv : Invoice) :
    (invoicePreSave inv).paidAmount = inv.paidAmount := rfl

theorem invoicePreSave_financials (inv : Invoice) :
    (invoicePreSave inv).financials =
      { subtotal := sumCost inv.phones
        taxAmount := inv.financials.taxAmount
        discountAmount := inv.financials.discountAmount
        shippingCost := inv.financials.shippingCost
        totalCost := sumCost inv.phones + inv.financials.taxAmount
          + inv.financials.shippingCost - inv.financials.discountAmount
        totalSellingPrice := sumSelling inv.phones } := rfl

theorem hasIMEI_update (imei x : String) (f : Phone → Phone)
    (hf : ∀ p, (f p).imei = p.imei) (inv : Invoice) :
    hasIMEI (invoicePreSave { inv with phones := updateFirstPhone imei f inv.phones }) x
      = hasIMEI inv x := by
  unfold hasIMEI
  rw [invoicePreSave_phones]
  exact any_updateFirstPhone imei x f hf inv.phones

/-- After saving a unit mutation, the first invoice containing the imei is the
saved (recomputed) version of the invoice that contained it before. -/
theorem findInv_saveUnitUpdate_self (imei : String) (f : Phone → Phone)
    (hf : ∀ p, (f p).imei = p.imei) (ledger : List Invoice) (inv : Invoice)
    (hinv : findInvoiceByImei ledger imei = some inv) :
    findInvoiceByImei (saveUnitUpdate imei f ledger) imei
      = some (invoicePreSave { inv with phones := updateFirstPhone imei f inv.phones }) := by
  induction ledger with
  | nil => simp [findInvoiceByImei] at hinv
  | cons i rest ih =>
    by_cases h : hasIMEI i imei
    · have hi : inv = i := by
        unfold findInvoiceByImei at hinv
        rw [List.find?_cons_of_pos _ (by simpa using h)] at hinv
        exact (Option.some.injEq _ _ ▸ hinv).symm
      subst hi
      unfold saveUnitUpdate updateWhere
      rw [if_pos h]
      unfold findInvoiceByImei
      rw [List.find?_cons_of_pos _ (by simpa using (hasIMEI_update imei imei f hf inv ▸ h))]
    · have hrest : findInvoiceByImei rest imei = some inv := by
        unfold findInvoiceByImei at hinv ⊢
        rwa [List.find?_cons_of_neg _ (by simpa using h)] at hinv
      unfold saveUnitUpdate updateWhere
      rw [if_neg h]
      unfold findInvoiceByImei
      rw [List.find?_cons_of_neg _ (by simpa using h)]
      exact ih hrest

/-- Saving a unit mutation of one imei does not change the ledger status read
for a different imei. -/
theorem lookupStatus_saveUnitUpdate_ne (imei x : String) (hx : x ≠ imei)
    (f : Phone → Phone) (hf : ∀ p, (f p).imei = p.imei) (ledger : List Invoice) :
    lookupStatus (saveUnitUpdate imei f ledger) x = lookupStatus ledger x := by
  induction ledger with
  | nil => rfl
  | cons i rest ih =>
    by_cases h : hasIMEI i imei
    · unfold saveUnitUpdate updateWhere
      rw [if_pos h]
      have h2 : hasIMEI (invoicePreSave { i with phones := updateFirstPhone imei f i.phones }) x
          = hasIMEI i x := hasIMEI_update imei x f hf i
      unfold lookupStatus findInvoiceByImei
      by_cases hix : hasIMEI i x
      · rw [List.find?_cons_of_pos _ (by simp [h2, hix]),
          List.find?_cons_of_pos _ (by simp [hix])]
        simp only [Option.some_bind]
        unfold getPhoneByIMEI
        rw [invoicePreSave_phones]
        show ((updateFirstPhone imei f i.phones).find? (fun p => p.imei == x)).map Phone.status = _
        rw [find?_updateFirstPhone_ne imei x f hf hx]
      · rw [List.find?_cons_of_neg _ (by simp [h2, hix]),
          List.find?_cons_of_neg _ (by simp [hix])]
    · unfold saveUnitUpdate updateWhere
      rw [if_neg h]
      unfold lookupStatus findInvoiceByImei
      by_cases hix : hasIMEI i x
      · rw [List.find?_cons_of_pos _ (by simp [hix]),
          List.find?_cons_of_pos _ (by simp [hix])]
      · rw [List.find?_cons_of_neg _ (by simp [hix]),
          List.find?_cons_of_neg _ (by simp [hix])]
        exact ih

/-- The ledger status of the mutated imei after the save is the mutated
phone's status. -/
theorem lookupStatus_saveUnitUpdate_self (imei : String) (f : Phone → Phone)
    (hf : ∀ p, (f p).imei = p.imei) (ledger : List Invoice) (inv : Invoice)
    (ph : Phone) (hinv : findInvoiceByImei ledger imei = some inv)
    (hph : getPhoneByIMEI inv imei = some ph) :
    lookupStatus (saveUnitUpdate imei f ledger) imei = some (f ph).status := by
  unfold lookupStatus
  rw [findInv_saveUnitUpdate_self imei f hf ledger inv hinv]
  simp only [Option.some_bind]
  unfold getPhoneByIMEI
  rw [invoicePreSave_phones]
  show ((updateFirstPhone imei f inv.phones).find? (fun p => p.imei == imei)).map Phone.status = _
  rw [find?_updateFirstPhone_self imei f hf,
    show List.find? (fun p => p.imei == imei) inv.phones = some ph from hph]
  rfl

/-- An invoice-level rewrite that keeps number and status keeps every stored
invoice status. -/
theorem statusOf_updateWhere_keep (q : Invoice → Bool) (g : Invoice → Invoice)
    (hnum : ∀ i, (g i).invoiceNumber = i.invoiceNumber)
    (hst : ∀ i, (g i).invoiceStatus = i.invoiceStatus)
    (ledger : List Invoice) (n : String) :
    statusOf (updateWhere q g ledger) n = statusOf ledger n := by
  induction ledger with
  | nil => rfl
  | cons i rest ih =>
    unfold updateWhere
    by_cases h : q i
    · rw [if_pos h]
      unfold statusOf
      by_cases hn : i.invoiceNumber = n
      · rw [List.find?_cons_of_pos _ (by simp [hnum, hn]),
          List.find?_cons_of_pos _ (by simp [hn])]
        simp [hst]
      · rw [List.find?_cons_of_neg _ (by simp [hnum, hn]),
          List.find?_cons_of_neg _ (by simp [hn])]
    · rw [if_neg h]
      unfold statusOf
      by_cases hn : i.invoiceNumber = n
      · rw [List.find?_cons_of_pos _ (by simp [hn]),
          List.find?_cons_of_pos _ (by simp [hn])]
      · rw [List.find?_cons_of_neg _ (by simp [hn]),
          List.find?_cons_of_neg _ (by simp [hn])]
        exact ih

/-- Rewriting the invoice with a given number does not change the stored
status of other numbers. -/
theorem statusOf_updateWhere_numkey_ne (id : String) (g : Invoice → Invoice)
    (hnum : ∀ i, (g i).invoiceNumber = i.invoiceNumber)
    (ledger : List Invoice) (n : String) (hn : n ≠ id) :
    statusOf (updateWhere (fun i => i.invoiceNumber == id) g ledger) n
      = statusOf ledger n := by
  induction ledger with
  | nil => rfl
  | cons i rest ih =>
    unfold updateWhere
    by_cases h : i.invoiceNumber = id
    · rw [if_pos (by simp [h])]
      unfold statusOf
      have hin : ¬ i.invoiceNumber = n := fun hc => hn (hc ▸ h ▸ rfl)
      rw [List.find?_cons_of_neg _ (by simp [hnum, hin]),
        List.find?_cons_of_neg _ (by simp [hin])]
    · rw [if_neg (by simp [h])]
      unfold statusOf
      by_cases hin : i.invoiceNumber = n
      · rw [List.find?_cons_of_pos _ (by simp [hin]),
          List.find?_cons_of_pos _ (by simp [hin])]
      · rw [List.find?_cons_of_neg _ (by simp [hin]),
          List.find?_cons_of_neg _ (by simp [hin])]
        exact ih

/-- Rewriting the invoice with a given number yields the transformed status
for that number. -/
theorem statusOf_updateWhere_numkey_self (id : String) (g : Invoice → Invoice)
    (hnum : ∀ i, (g i).invoiceNumber = i.invoiceNumber)
    (ledger : List Invoice) (inv : Invoice)
    (h : ledger.find? (fun i => i.invoiceNumber == id) = some inv) :
    statusOf (updateWhere (fun i => i.invoiceNumber == id) g ledger) id
      = some (g inv).invoiceStatus := by
  induction ledger with
  | nil => simp at h
  | cons i rest ih =>
    unfold updateWhere
    by_cases hi : i.invoiceNumber = id
    · rw [List.find?_cons_of_pos _ (by simp [hi])] at h
      have hinv : inv = i := by
        injection h with h; exact h.symm
      subst hinv
      rw [if_pos (by simp [hi])]
      unfold statusOf
      rw [List.find?_cons_of_pos _ (by simp [hnum, hi])]
      rfl
    · rw [List.find?_cons_of_neg _ (by simp [hi])] at h
      rw [if_neg (by simp [hi])]
      unfold statusOf
      rw [List.find?_cons_of_neg _ (by simp [hi])]
      exact ih h

/-- With pairwise-distinct invoice numbers (the unique index), removing one
document can only keep a stored status or erase it. -/
theorem statusOf_removeWhere (q : Invoice → Bool) (ledger : List Invoice)
    (n : String) (hnd : (ledger.map Invoice.invoiceNumber).Nodup) :
    statusOf (removeWhere q ledger) n = statusOf ledger n
      ∨ statusOf (removeWhere q ledger) n = none := by
  induction ledger with
  | nil => left; rfl
  | cons i rest ih =>
    have hnd' : (rest.map Invoice.invoiceNumber).Nodup := (List.nodup_cons.mp hnd).2
    have hni : i.invoiceNumber ∉ rest.map Invoice.invoiceNumber := (List.nodup_cons.mp hnd).1
    unfold removeWhere
    by_cases h : q i
    · rw [if_pos h]
      by_cases hin : i.invoiceNumber = n
      · right
        unfold statusOf
        have : rest.find? (fun j => j.invoiceNumber == n) = none := by
          rw [List.find?_eq_none]
          intro j hj hc
          exact hni (hin ▸ (by simpa using hc) ▸ List.mem_map_of_mem Invoice.invoiceNumber hj)
        rw [this]
        rfl
      · left
        unfold statusOf
        rw [List.find?_cons_of_neg _ (by simp [hin])]
    · rw [if_neg h]
      unfold statusOf
      by_cases hin : i.invoiceNumber = n
      · left
        rw [List.find?_cons_of_pos _ (by simp [hin]),
          List.find?_cons_of_pos _ (by simp [hin])]
      · rw [List.find?_cons_of_neg _ (by simp [hin]),
          List.find?_cons_of_neg _ (by simp [hin])]
        exact ih hnd'

/-- Appending new documents does not change an already-present stored status. -/
theorem statusOf_append (ledger more : List Invoice) (n : String)
    (h : (statusOf ledger n).isSome) :
    statusOf (ledger ++ more) n = statusOf ledger n := by
  unfold statusOf at h ⊢
  rw [List.find?_append]
  cases hf : ledger.find? (fun i => i.invoiceNumber == n) with
  | none => rw [hf] at h; simp at h
  | some i => simp [hf]

/-- Every invoice of an updated ledger is an original one or a transform of
an original one. -/
theorem mem_updateWhere (q : Invoice → Bool) (g : Invoice → Invoice)
    (ledger : List Invoice) (a : Invoice) (ha : a ∈ updateWhere q g ledger) :
    a ∈ ledger ∨ ∃ b ∈ ledger, a = g b := by
  induction ledger with
  | nil => simp [updateWhere] at ha
  | cons i rest ih =>
    unfold updateWhere at ha
    by_cases h : q i
    · rw [if_pos h] at ha
      rcases List.mem_cons.mp ha with h1 | h1
      · right; exact ⟨i, List.mem_cons_self .., h1⟩
      · left; exact List.mem_cons_of_mem _ h1
    · rw [if_neg h] at ha
      rcases List.mem_cons.mp ha with h1 | h1
      · left; exact h1 ▸ List.mem_cons_self ..
      · rcases ih h1 with h2 | ⟨b, hb, h2⟩
        · left; exact List.mem_cons_of_mem _ h2
        · right; exact ⟨b, List.mem_cons_of_mem _ hb, h2⟩

theorem mem_removeWhere (q : Invoice → Bool) (ledger : List Invoice)
    (a : Invoice) (ha : a ∈ removeWhere q ledger) : a ∈ ledger := by
  induction ledger with
  | nil => simp [removeWhere] at ha
  | cons i rest ih =>
    unfold removeWhere at ha
    by_cases h : q i
    · rw [if_pos h] at ha
      exact List.mem_cons_of_mem _ ha
    · rw [if_neg h] at ha
      rcases List.mem_cons.mp ha with h1 | h1
      · exact h1 ▸ List.mem_cons_self ..
      · exact List.mem_cons_of_mem _ (ih h1)

theorem asgPreSave_status (a : Assignment) :
    (asgPreSave a).status =
      if (a.phones.filter (fun p => p.status == AsgPhoneStatus.Returned)).length
          = a.phones.length
      then AsgStatus.FullyReturned
      else if 0 < (a.phones.filter (fun p => p.status == AsgPhoneStatus.Returned)).length
          ∨ 0 < (a.phones.filter (fun p => p.status == AsgPhoneStatus.Sold)).length
      then AsgStatus.PartiallyReturned
      else AsgStatus.Active := rfl

theorem filter_length_eq_length_iff {α : Type} (q : α → Bool) (l : List α) :
    (l.filter q).length = l.length ↔ ∀ a ∈ l, q a := by
  rw [← List.countP_eq_length_filter]
  exact List.countP_eq_length

theorem filter_length_pos_iff {α : Type} (q : α → Bool) (l : List α) :
    0 < (l.filter q).length ↔ ∃ a ∈ l, q a := by
  rw [← List.countP_eq_length_filter]
  exact List.countP_pos_iff

theorem statusOf_saveUnitUpdate (imei : String) (f : Phone → Phone)
    (ledger : List Invoice) (n : String) :
    statusOf (saveUnitUpdate imei f ledger) n = statusOf ledger n := by
  unfold saveUnitUpdate
  exact statusOf_updateWhere_keep (fun i => hasIMEI i imei)
    (fun i => invoicePreSave { i with phones := updateFirstPhone imei f i.phones })
    (fun _ => rfl) (fun _ => rfl) ledger n

/-! ### Claim theorems -/

/-- C7: the assignment pre-save hook recomputes the stored status from the
per-unit outcomes: all units Returned gives Fully Returned; otherwise any
Sold or Returned unit gives Partially Returned; otherwise Active. -/
theorem assignment_status_recomputed_from_outcomes (a : Assignment) :
    ((∀ p ∈ a.phones, p.status = AsgPhoneStatus.Returned) →
        (asgPreSave a).status = AsgStatus.FullyReturned)
    ∧ (¬ (∀ p ∈ a.phones, p.status = AsgPhoneStatus.Returned) →
        (∃ p ∈ a.phones, p.status = AsgPhoneStatus.Sold ∨ p.status = AsgPhoneStatus.Returned) →
        (asgPreSave a).status = AsgStatus.PartiallyReturned)
    ∧ (¬ (∀ p ∈ a.phones, p.status = AsgPhoneStatus.Returned) →
        (∀ p ∈ a.phones, p.status ≠ AsgPhoneStatus.Sold ∧ p.status ≠ AsgPhoneStatus.Returned) →
        (asgPreSave a).status = AsgStatus.Active) := by
  refine ⟨fun hall => ?_, fun hnall hex => ?_, fun hnall hnone => ?_⟩
  · rw [asgPreSave_status, if_pos]
    rw [filter_length_eq_length_iff]
    intro p hp
    simp [hall p hp]
  · rw [asgPreSave_status, if_neg, if_pos]
    · rcases hex with ⟨p, hp, hps | hps⟩
      · right
        rw [filter_length_pos_iff]
        exact ⟨p, hp, by simp [hps]⟩
      · left
        rw [filter_length_pos_iff]
        exact ⟨p, hp, by simp [hps]⟩
    · rw [filter_length_eq_length_iff]
      intro hc
      exact hnall fun p hp => by simpa using hc p hp
  · rw [asgPreSave_status, if_neg, if_neg]
    · rintro (hpos | hpos) <;> rw [filter_length_pos_iff] at hpos
      · rcases hpos with ⟨p, hp, hps⟩
        exact (hnone p hp).2 (by simpa using hps)
      · rcases hpos with ⟨p, hp, hps⟩
        exact (hnone p hp).1 (by simpa using hps)
    · rw [filter_length_eq_length_iff]
      intro hc
      exact hnall fun p hp => by simpa using hc p hp

/-- Witness for C7 at a one-phone Sold assignment: not all units are
Returned, one is Sold, and the recomputed status is Partially Returned. -/
theorem assignment_status_recomputed_from_outcomes_witness :
    (asgPreSave
      { phones := [{ invoiceNumber := "INV-001", imei := "123456789012345",
                     assignedPrice := 100, targetPrice := 120,
                     status := AsgPhoneStatus.Sold }] }).status
      = AsgStatus.PartiallyReturned :=
  (assignment_status_recomputed_from_outcomes
      { phones := [{ invoiceNumber := "INV-001", imei := "123456789012345",
                     assignedPrice := 100, targetPrice := 120,
                     status := AsgPhoneStatus.Sold }] }).2.1
    (by decide)
    ⟨{ invoiceNumber := "INV-001", imei := "123456789012345",
       assignedPrice := 100, targetPrice := 120,
       status := AsgPhoneStatus.Sold }, by simp, by decide⟩

/-- C4: verify succeeds exactly on a Draft invoice with a proof attached; on
a Draft invoice without proof it fails with the verification-precondition
error and nothing is persisted; on success the status becomes Verified and a
second verify fails; and no ledger-writing operation takes an invoice whose
stored status is Verified back to Draft. -/
theorem verification_gating_and_irreversibility :
    (∀ ledger id,
      (∃ l', verifyInvoice ledger id = .ok l') ↔
        (∃ inv, ledger.find? (fun i => i.invoiceNumber == id) = some inv ∧
          inv.invoiceStatus = InvStatus.Draft ∧ proofAttached inv = true))
    ∧ (∀ ledger id inv,
        ledger.find? (fun i => i.invoiceNumber == id) = some inv →
        inv.invoiceStatus = InvStatus.Draft → proofAttached inv = false →
        verifyInvoice ledger id =
          .error ⟨400, "Invoice proof image is required for verification. Please upload invoice proof first."⟩)
    ∧ (∀ ledger id l',
        verifyInvoice ledger id = .ok l' →
        statusOf l' id = some InvStatus.Verified ∧
          verifyInvoice l' id =
            .error ⟨400, "Invoice is already processed. Cannot verify."⟩)
    ∧ (∀ op ledger l' n,
        (ledger.map Invoice.invoiceNumber).Nodup →
        statusOf ledger n = some InvStatus.Verified →
        applyInvoiceOp op ledger = .ok l' →
        statusOf l' n ≠ some InvStatus.Draft) := by
  refine ⟨?_, ?_, ?_, ?_⟩
  · intro ledger id
    constructor
    · rintro ⟨l', hok⟩
      unfold verifyInvoice at hok
      cases hfind : ledger.find? (fun i => i.invoiceNumber == id) with
      | none => simp [hfind] at hok
      | some inv =>
        simp only [hfind] at hok
        by_cases hd : inv.invoiceStatus = InvStatus.Draft
        · rw [if_pos hd] at hok
          by_cases hp : proofAttached inv
          · exact ⟨inv, rfl, hd, hp⟩
          · rw [if_neg hp] at hok; simp at hok
        · rw [if_neg hd] at hok; simp at hok
    · rintro ⟨inv, hfind, hd, hp⟩
      unfold verifyInvoice
      simp only [hfind]
      rw [if_pos hd, if_pos hp]
      exact ⟨_, rfl⟩
  · intro ledger id inv hfind hd hp
    unfold verifyInvoice
    simp only [hfind]
    rw [if_pos hd, if_neg (by simp [hp])]
  · intro ledger id l' hok
    unfold verifyInvoice at hok
    cases hfind : ledger.find? (fun i => i.invoiceNumber == id) with
    | none => simp [hfind] at hok
    | some inv =>
      simp only [hfind] at hok
      by_cases hd : inv.invoiceStatus = InvStatus.Draft
      · rw [if_pos hd] at hok
        by_cases hp : proofAttached inv
        · rw [if_pos hp] at hok
          injection hok with hok
          subst hok
          have hst : statusOf
              (updateWhere (fun i => i.invoiceNumber == id)
                (fun i => invoicePreSave { i with invoiceStatus := InvStatus.Verified }) ledger) id
              = some InvStatus.Verified :=
            statusOf_updateWhere_numkey_self id
              (fun i => invoicePreSave { i with invoiceStatus := InvStatus.Verified })
              (fun _ => rfl) ledger inv hfind
          refine ⟨hst, ?_⟩
          unfold statusOf at hst
          cases hfind2 : (updateWhere (fun i => i.invoiceNumber == id)
              (fun i => invoicePreSave { i with invoiceStatus := InvStatus.Verified }) ledger).find?
              (fun i => i.invoiceNumber == id) with
          | none => rw [hfind2] at hst; simp at hst
          | some inv2 =>
            rw [hfind2] at hst
            have hv2 : inv2.invoiceStatus = InvStatus.Verified := by
              simpa using hst
            unfold verifyInvoice
            simp only [hfind2]
            rw [if_neg (by simp [hv2])]
        · rw [if_neg hp] at hok; simp at hok
      · rw [if_neg hd] at hok; simp at hok
  · intro op ledger l' n hnd hver hok
    cases op with
    | create req =>
      simp only [applyInvoiceOp] at hok
      unfold createPurchaseInvoice at hok
      by_cases hdup : ledger.any (fun i => i.invoiceNumber == req.invoiceNumber)
      · rw [if_pos hdup] at hok; simp at hok
      · rw [if_neg hdup] at hok
        cases hfd : req.phones.find? (fun p => isIMEIDuplicate ledger p.imei) with
        | some p => simp [hfd] at hok
        | none =>
          simp only [hfd] at hok
          injection hok with hok
          subst hok
          rw [statusOf_append _ _ _ (by simp [hver]), hver]
          simp
    | update id patch =>
      simp only [applyInvoiceOp] at hok
      unfold updateInvoice at hok
      cases hfind : ledger.find? (fun i => i.invoiceNumber == id) with
      | none => simp [hfind] at hok
      | some inv =>
        simp only [hfind] at hok
        by_cases hd : inv.invoiceStatus = InvStatus.Draft
        · rw [if_pos hd] at hok
          by_cases hassigned : inv.phones.any (fun p => !(p.status == PhoneStatus.Available))
          · rw [if_pos hassigned] at hok; simp at hok
          · rw [if_neg hassigned] at hok
            injection hok with hok
            subst hok
            by_cases hn : n = id
            · subst hn
              unfold statusOf at hver
              simp only [statusOf, hfind] at hver
              simp [hd] at hver
            · rw [statusOf_updateWhere_numkey_ne id
                (fun i => { i with
                  phones := patch.phones.getD i.phones
                  financials := patch.financials.getD i.financials
                  paidAmount := patch.paidAmount.getD i.paidAmount
                  invoiceStatus := InvStatus.Draft })
                (fun _ => rfl) ledger n hn, hver]
              simp
        · rw [if_neg hd] at hok; simp at hok
    | uploadProof id url =>
      simp only [applyInvoiceOp] at hok
      unfold uploadInvoiceProof at hok
      cases hfind : ledger.find? (fun i => i.invoiceNumber == id) with
      | none => simp [hfind] at hok
      | some inv =>
        simp only [hfind] at hok
        injection hok with hok
        subst hok
        rw [statusOf_updateWhere_keep (fun i => i.invoiceNumber == id)
          (fun i => invoicePreSave { i with proofUrl := some url })
          (fun _ => rfl) (fun _ => rfl), hver]
        simp
    | verify id =>
      simp only [applyInvoiceOp] at hok
      unfold verifyInvoice at hok
      cases hfind : ledger.find? (fun i => i.invoiceNumber == id) with
      | none => simp [hfind] at hok
      | some inv =>
        simp only [hfind] at hok
        by_cases hd : inv.invoiceStatus = InvStatus.Draft
        · rw [if_pos hd] at hok
          by_cases hp : proofAttached inv
          · rw [if_pos hp] at hok
            injection hok with hok
            subst hok
            by_cases hn : n = id
            · subst hn
              unfold statusOf at hver
              simp only [statusOf, hfind] at hver
              simp [hd] at hver
            · rw [statusOf_updateWhere_numkey_ne id
                (fun i => invoicePreSave { i with invoiceStatus := InvStatus.Verified })
                (fun _ => rfl) ledger n hn, hver]
              simp
          · rw [if_neg hp] at hok; simp at hok
        · rw [if_neg hd] at hok; simp at hok
    | cancel id =>
      simp only [applyInvoiceOp] at hok
      unfold deleteInvoice at hok
      cases hfind : ledger.find? (fun i => i.invoiceNumber == id) with
      | none => simp [hfind] at hok
      | some inv =>
        simp only [hfind] at hok
        by_cases hd : inv.invoiceStatus = InvStatus.Draft
        · rw [if_pos hd] at hok
          by_cases hassigned : inv.phones.any (fun p => !(p.status == PhoneStatus.Available))
          · rw [if_pos hassigned] at hok; simp at hok
          · rw [if_neg hassigned] at hok
            injection hok with hok
            subst hok
            by_cases hn : n = id
            · subst hn
              unfold statusOf at hver
              simp only [statusOf, hfind] at hver
              simp [hd] at hver
            · rw [statusOf_updateWhere_numkey_ne id
                (fun i => invoicePreSave { i with invoiceStatus := InvStatus.Cancelled })
                (fun _ => rfl) ledger n hn, hver]
              simp
        · rw [if_neg hd] at hok; simp at hok
    | setPhoneStatus imei st soldDate now =>
      simp only [applyInvoiceOp] at hok
      unfold updatePhoneStatus at hok
      cases hfind : findInvoiceByImei ledger imei with
      | none => simp [hfind] at hok
      | some inv =>
        simp only [hfind] at hok
        injection hok with hok
        subst hok
        rw [statusOf_saveUnitUpdate, hver]
        simp
    | editPhone imei patch =>
      simp only [applyInvoiceOp] at hok
      unfold updatePhone at hok
      cases hfind : findInvoiceByImei ledger imei with
      | none => simp [hfind] at hok
      | some inv =>
        simp only [hfind] at hok
        cases hph : getPhoneByIMEI inv imei with
        | none => simp [hph] at hok
        | some phone =>
          simp only [hph] at hok
          by_cases hav : phone.status = PhoneStatus.Available ∨ phone.status = PhoneStatus.Damaged
          · rw [if_pos hav] at hok
            injection hok with hok
            subst hok
            rw [statusOf_saveUnitUpdate, hver]
            simp
          · rw [if_neg hav] at hok; simp at hok
    | removePhone imei =>
      simp only [applyInvoiceOp] at hok
      unfold deletePhone at hok
      cases hfind : findInvoiceByImei ledger imei with
      | none => simp [hfind] at hok
      | some inv =>
        simp only [hfind] at hok
        cases hph : getPhoneByIMEI inv imei with
        | none => simp [hph] at hok
        | some phone =>
          simp only [hph] at hok
          by_cases hav : phone.status = PhoneStatus.Available
          · rw [if_pos hav] at hok
            by_cases hempty : (inv.phones.filter (fun p => !(p.imei == imei))).isEmpty
            · rw [if_pos hempty] at hok
              injection hok with hok
              subst hok
              rcases statusOf_removeWhere _ ledger n hnd with h | h
              · rw [h, hver]; simp
              · rw [h]; simp
            · rw [if_neg hempty] at hok
              injection hok with hok
              subst hok
              rw [statusOf_updateWhere_keep (fun i => i.invoiceNumber == inv.invoiceNumber)
                (fun i => invoicePreSave { i with phones := i.phones.filter (fun p => !(p.imei == imei)) })
                (fun _ => rfl) (fun _ => rfl), hver]
              simp
          · rw [if_neg hav] at hok; simp at hok
    | assignUnit imei =>
      simp only [applyInvoiceOp] at hok
      unfold assignUnitLedger at hok
      cases hlk : lookupStatus ledger imei with
      | none => simp [hlk] at hok
      | some st =>
        simp only [hlk] at hok
        by_cases hav : st = PhoneStatus.Available
        · rw [if_pos hav] at hok
          injection hok with hok
          subst hok
          rw [statusOf_saveUnitUpdate, hver]
          simp
        · rw [if_neg hav] at hok; simp at hok
    | sellUnit imei soldDate =>
      simp only [applyInvoiceOp] at hok
      unfold sellUnitLedger at hok
      cases hlk : lookupStatus ledger imei with
      | none => simp [hlk] at hok
      | some st =>
        simp only [hlk] at hok
        injection hok with hok
        subst hok
        rw [statusOf_saveUnitUpdate, hver]
        simp
    | returnUnit imei =>
      simp only [applyInvoiceOp] at hok
      unfold returnUnitLedger at hok
      cases hlk : lookupStatus ledger imei with
      | none => simp [hlk] at hok
      | some st =>
        simp only [hlk] at hok
        injection hok with hok
        subst hok
        rw [statusOf_saveUnitUpdate, hver]
        simp

/-- Witness for C4 at the sample invoice: verify on the proofless Draft
invoice fails with the precondition error, verify after the proof upload
succeeds, the status becomes Verified, and a second verify fails. -/
theorem verification_gating_and_irreversibility_witness :
    verifyInvoice [sampleDraft] "INV-001" =
      .error ⟨400, "Invoice proof image is required for verification. Please upload invoice proof first."⟩
    ∧ (∃ l', verifyInvoice [sampleWithProof] "INV-001" = .ok l')
    ∧ ∀ l', verifyInvoice [sampleWithProof] "INV-001" = .ok l' →
        statusOf l' "INV-001" = some InvStatus.Verified ∧
          verifyInvoice l' "INV-001" =
            .error ⟨400, "Invoice is already processed. Cannot verify."⟩ := by
  refine ⟨?_, ?_, ?_⟩
  · exact verification_gating_and_irreversibility.2.1 [sampleDraft] "INV-001" sampleDraft
      (by decide) (by decide) (by decide)
  · exact (verification_gating_and_irreversibility.1 [sampleWithProof] "INV-001").mpr
      ⟨sampleWithProof, by decide, by decide, by decide⟩
  · intro l' hok
    exact verification_gating_and_irreversibility.2.2.1 [sampleWithProof] "INV-001" l' hok

/-- C5: creating an invoice that contains an imei already present anywhere in
the collection (whatever that unit's status) fails with a 400 conflict error,
so nothing is inserted; and a successful creation preserves cross-invoice
imei disjointness. -/
theorem global_imei_uniqueness (ledger : List Invoice) (req : NewInvoiceReq) :
    ((∃ p ∈ req.phones, isIMEIDuplicate ledger p.imei = true) →
      ∃ e, createPurchaseInvoice ledger req = .error e ∧ e.statusCode = 400)
    ∧ (GlobalImeiUnique ledger →
      ∀ l', createPurchaseInvoice ledger req = .ok l' → GlobalImeiUnique l') := by
  constructor
  · rintro ⟨p, hp, hdup⟩
    unfold createPurchaseInvoice
    by_cases hnum : ledger.any (fun i => i.invoiceNumber == req.invoiceNumber)
    · rw [if_pos hnum]
      exact ⟨_, rfl, rfl⟩
    · rw [if_neg hnum]
      have hsome : (req.phones.find? (fun q => isIMEIDuplicate ledger q.imei)).isSome := by
        rw [List.find?_isSome]
        exact ⟨p, hp, hdup⟩
      cases hfd : req.phones.find? (fun q => isIMEIDuplicate ledger q.imei) with
      | none => rw [hfd] at hsome; simp at hsome
      | some q =>
        simp only [hfd]
        exact ⟨_, rfl, rfl⟩
  · intro huniq l' hok
    unfold createPurchaseInvoice at hok
    by_cases hnum : ledger.any (fun i => i.invoiceNumber == req.invoiceNumber)
    · rw [if_pos hnum] at hok; simp at hok
    · rw [if_neg hnum] at hok
      cases hfd : req.phones.find? (fun q => isIMEIDuplicate ledger q.imei) with
      | some q => simp [hfd] at hok
      | none =>
        simp only [hfd] at hok
        injection hok with hok
        subst hok
        have hfresh : ∀ q ∈ req.phones, isIMEIDuplicate ledger q.imei = false := by
          intro q hq
          have := List.find?_eq_none.mp hfd q hq
          simpa using this
        unfold GlobalImeiUnique
        rw [List.pairwise_append]
        refine ⟨huniq, List.pairwise_singleton _ _, ?_⟩
        intro a ha b hb p1 hp1 p2 hp2
        have hb' : b = invoicePreSave
            { invoiceNumber := req.invoiceNumber, phones := req.phones,
              financials := req.financials, paidAmount := req.paidAmount,
              invoiceStatus := .Draft, proofUrl := none } := by
          simpa using hb
        subst hb'
        rw [invoicePreSave_phones] at hp2
        intro hc
        have hnodup : isIMEIDuplicate ledger p2.imei = false := hfresh p2 hp2
        have hsome : isIMEIDuplicate ledger p2.imei = true := by
          unfold isIMEIDuplicate findInvoiceByImei
          rw [List.find?_isSome]
          exact ⟨a, ha, by
            unfold hasIMEI
            rw [List.any_eq_true]
            exact ⟨p1, hp1, by simp [hc]⟩⟩
        rw [hsome] at hnodup
        simp at hnodup

theorem invoicePreSave_idem (inv : Invoice) :
    invoicePreSave (invoicePreSave inv) = invoicePreSave inv := rfl

theorem consistent_of_mem_updateWhere (q : Invoice → Bool) (t : Invoice → Invoice)
    (l : List Invoice) (hc : ∀ i ∈ l, financiallyConsistent i)
    (i : Invoice) (hi : i ∈ updateWhere q (fun j => invoicePreSave (t j)) l) :
    financiallyConsistent i := by
  rcases mem_updateWhere _ _ _ _ hi with h | ⟨b, _, rfl⟩
  · exact hc i h
  · exact invoicePreSave_idem (t b)

/-- C2 (amended): the pre-save hook recomputes subtotal, totalCost,
totalSellingPrice and pendingAmount from the current unit set and is
idempotent, and every save-based mutating operation leaves only consistent
stored aggregates; the invoice edit operation is the exception, as it writes
through findByIdAndUpdate without the recompute hook. -/
theorem financial_aggregate_recompute :
    (∀ inv : Invoice,
      (invoicePreSave inv).financials.subtotal = sumCost inv.phones
      ∧ (invoicePreSave inv).financials.totalCost
          = sumCost inv.phones + inv.financials.taxAmount
            + inv.financials.shippingCost - inv.financials.discountAmount
      ∧ (invoicePreSave inv).financials.totalSellingPrice = sumSelling inv.phones
      ∧ (invoicePreSave inv).pendingAmount
          = (invoicePreSave inv).financials.totalCost - inv.paidAmount)
    ∧ (∀ inv : Invoice, invoicePreSave (invoicePreSave inv) = invoicePreSave inv)
    ∧ (∀ op ledger l',
        (∀ i ∈ ledger, financiallyConsistent i) →
        (∀ id patch, op ≠ InvoiceOp.update id patch) →
        applyInvoiceOp op ledger = .ok l' →
        ∀ i ∈ l', financiallyConsistent i) := by
  refine ⟨fun inv => ⟨rfl, rfl, rfl, rfl⟩, fun inv => invoicePreSave_idem inv, ?_⟩
  intro op ledger l' hc hne hok
  cases op with
  | create req =>
    simp only [applyInvoiceOp] at hok
    unfold createPurchaseInvoice at hok
    by_cases hnum : ledger.any (fun i => i.invoiceNumber == req.invoiceNumber)
    · rw [if_pos hnum] at hok; simp at hok
    · rw [if_neg hnum] at hok
      cases hfd : req.phones.find? (fun q => isIMEIDuplicate ledger q.imei) with
      | some q => simp [hfd] at hok
      | none =>
        simp only [hfd] at hok
        injection hok with hok
        subst hok
        intro i hi
        rcases List.mem_append.mp hi with h | h
        · exact hc i h
        · have : i = invoicePreSave
              { invoiceNumber := req.invoiceNumber, phones := req.phones,
                financials := req.financials, paidAmount := req.paidAmount,
                invoiceStatus := .Draft, proofUrl := none } := by simpa using h
          subst this
          exact invoicePreSave_idem _
  | update id patch => exact absurd rfl (hne id patch)
  | uploadProof id url =>
    simp only [applyInvoiceOp] at hok
    unfold uploadInvoiceProof at hok
    cases hfind : ledger.find? (fun i => i.invoiceNumber == id) with
    | none => simp [hfind] at hok
    | some inv =>
      simp only [hfind] at hok
      injection hok with hok
      subst hok
      exact consistent_of_mem_updateWhere _ (fun i => { i with proofUrl := some url }) _ hc
  | verify id =>
    simp only [applyInvoiceOp] at hok
    unfold verifyInvoice at hok
    cases hfind : ledger.find? (fun i => i.invoiceNumber == id) with
    | none => simp [hfind] at hok
    | some inv =>
      simp only [hfind] at hok
      by_cases hd : inv.invoiceStatus = InvStatus.Draft
      · rw [if_pos hd] at hok
        by_cases hp : proofAttached inv
        · rw [if_pos hp] at hok
          injection hok with hok
          subst hok
          exact consistent_of_mem_updateWhere _
            (fun i => { i with invoiceStatus := InvStatus.Verified }) _ hc
        · rw [if_neg hp] at hok; simp at hok
      · rw [if_neg hd] at hok; simp at hok
  | cancel id =>
    simp only [applyInvoiceOp] at hok
    unfold deleteInvoice at hok
    cases hfind : ledger.find? (fun i => i.invoiceNumber == id) with
    | none => simp [hfind] at hok
    | some inv =>
      simp only [hfind] at hok
      by_cases hd : inv.invoiceStatus = InvStatus.Draft
      · rw [if_pos hd] at hok
        by_cases hassigned : inv.phones.any (fun p => !(p.status == PhoneStatus.Available))
        · rw [if_pos hassigned] at hok; simp at hok
        · rw [if_neg hassigned] at hok
          injection hok with hok
          subst hok
          exact consistent_of_mem_updateWhere _
            (fun i => { i with invoiceStatus := InvStatus.Cancelled }) _ hc
      · rw [if_neg hd] at hok; simp at hok
  | setPhoneStatus imei st soldDate now =>
    simp only [applyInvoiceOp] at hok
    unfold updatePhoneStatus at hok
    cases hfind : findInvoiceByImei ledger imei with
    | none => simp [hfind] at hok
    | some inv =>
      simp only [hfind] at hok
      injection hok with hok
      subst hok
      unfold saveUnitUpdate
      exact consistent_of_mem_updateWhere _
        (fun i => { i with phones := updateFirstPhone imei (fun p => if st = .Sold then { p with status := st, soldDate := some (soldDate.getD now) } else { p with status := st }) i.phones }) _ hc
  | editPhone imei patch =>
    simp only [applyInvoiceOp] at hok
    unfold updatePhone at hok
    cases hfind : findInvoiceByImei ledger imei with
    | none => simp [hfind] at hok
    | some inv =>
      simp only [hfind] at hok
      cases hph : getPhoneByIMEI inv imei with
      | none => simp [hph] at hok
      | some phone =>
        simp only [hph] at hok
        by_cases hav : phone.status = PhoneStatus.Available ∨ phone.status = PhoneStatus.Damaged
        · rw [if_pos hav] at hok
          injection hok with hok
          subst hok
          unfold saveUnitUpdate
          exact consistent_of_mem_updateWhere _
            (fun i => { i with phones := updateFirstPhone imei (fun p => { p with costPrice := patch.costPrice.getD p.costPrice, sellingPrice := patch.sellingPrice.getD p.sellingPrice }) i.phones }) _ hc
        · rw [if_neg hav] at hok; simp at hok
  | removePhone imei =>
    simp only [applyInvoiceOp] at hok
    unfold deletePhone at hok
    cases hfind : findInvoiceByImei ledger imei with
    | none => simp [hfind] at hok
    | some inv =>
      simp only [hfind] at hok
      cases hph : getPhoneByIMEI inv imei with
      | none => simp [hph] at hok
      | some phone =>
        simp only [hph] at hok
        by_cases hav : phone.status = PhoneStatus.Available
        · rw [if_pos hav] at hok
          by_cases hempty : (inv.phones.filter (fun p => !(p.imei == imei))).isEmpty
          · rw [if_pos hempty] at hok
            injection hok with hok
            subst hok
            intro i hi
            exact hc i (mem_removeWhere _ _ _ hi)
          · rw [if_neg hempty] at hok
            injection hok with hok
            subst hok
            exact consistent_of_mem_updateWhere _
              (fun i => { i with phones := i.phones.filter (fun p => !(p.imei == imei)) }) _ hc
        · rw [if_neg hav] at hok; simp at hok
  | assignUnit imei =>
    simp only [applyInvoiceOp] at hok
    unfold assignUnitLedger at hok
    cases hlk : lookupStatus ledger imei with
    | none => simp [hlk] at hok
    | some st =>
      simp only [hlk] at hok
      by_cases hav : st = PhoneStatus.Available
      · rw [if_pos hav] at hok
        injection hok with hok
        subst hok
        unfold saveUnitUpdate
        exact consistent_of_mem_updateWhere _
          (fun i => { i with phones := updateFirstPhone imei (fun p => { p with status := PhoneStatus.Assigned }) i.phones }) _ hc
      · rw [if_neg hav] at hok; simp at hok
  | sellUnit imei soldDate =>
    simp only [applyInvoiceOp] at hok
    unfold sellUnitLedger at hok
    cases hlk : lookupStatus ledger imei with
    | none => simp [hlk] at hok
    | some st =>
      simp only [hlk] at hok
      injection hok with hok
      subst hok
      unfold saveUnitUpdate
      exact consistent_of_mem_updateWhere _
        (fun i => { i with phones := updateFirstPhone imei (fun p => { p with status := PhoneStatus.Sold, soldDate := some soldDate }) i.phones }) _ hc
  | returnUnit imei =>
    simp only [applyInvoiceOp] at hok
    unfold returnUnitLedger at hok
    cases hlk : lookupStatus ledger imei with
    | none => simp [hlk] at hok
    | some st =>
      simp only [hlk] at hok
      injection hok with hok
      subst hok
      unfold saveUnitUpdate
      exact consistent_of_mem_updateWhere _
        (fun i => { i with phones := updateFirstPhone imei (fun p => { p with status := PhoneStatus.Available }) i.phones }) _ hc

/-- Witness for C2: the sample invoice is consistent, and after the
save-based proof-upload operation every stored invoice is still consistent. -/
theorem financial_aggregate_recompute_witness :
    financiallyConsistent sampleDraft
    ∧ (∀ i ∈ (applyInvoiceOp (.uploadProof "INV-001" "https://bucket/p.png")
          [sampleDraft]).toOption.getD [],
        financiallyConsistent i) := by
  constructor
  · exact financial_aggregate_recompute.2.1
      { invoiceNumber := "INV-001", phones := [samplePhone] }
  · exact financial_aggregate_recompute.2.2
      (.uploadProof "INV-001" "https://bucket/p.png") [sampleDraft] _
      (by intro i hi; rw [show i = sampleDraft by simpa using hi];
          exact financial_aggregate_recompute.2.1
            { invoiceNumber := "INV-001", phones := [samplePhone] })
      (by intro id patch hcon; simp at hcon)
      rfl

/-- C2 counterexample: the invoice edit (findByIdAndUpdate, no pre-save hook)
replaces the unit list without recomputing, leaving subtotal 100 stored while
the unit costs sum to 50. -/
theorem invoice_edit_leaves_stale_aggregate :
    (updateInvoice [sampleDraft] "INV-001" { phones := some [samplePhone2] }).toOption
      = some [staleEdited]
    ∧ staleEdited.financials.subtotal = 100
    ∧ sumCost staleEdited.phones = 50
    ∧ ¬ financiallyConsistent staleEdited := by
  refine ⟨by decide, by decide, by decide, by unfold financiallyConsistent; decide⟩

theorem mem_updateWhere_find? (q : Invoice → Bool) (g : Invoice → Invoice)
    (l : List Invoice) (a : Invoice) (ha : a ∈ updateWhere q g l) :
    a ∈ l ∨ ∃ b, l.find? q = some b ∧ a = g b := by
  induction l with
  | nil => simp [updateWhere] at ha
  | cons i rest ih =>
    unfold updateWhere at ha
    by_cases h : q i
    · rw [if_pos h] at ha
      rcases List.mem_cons.mp ha with h1 | h1
      · right; exact ⟨i, List.find?_cons_of_pos _ (by simpa using h), h1⟩
      · left; exact List.mem_cons_of_mem _ h1
    · rw [if_neg h] at ha
      rcases List.mem_cons.mp ha with h1 | h1
      · left; exact h1 ▸ List.mem_cons_self ..
      · rcases ih h1 with h2 | ⟨b, hb, h2⟩
        · left; exact List.mem_cons_of_mem _ h2
        · right
          refine ⟨b, ?_, h2⟩
          rw [List.find?_cons_of_neg _ (by simpa using h)]
          exact hb

theorem find?_numkey_of_mem_nodup (ledger : List Invoice) (inv : Invoice)
    (hnd : (ledger.map Invoice.invoiceNumber).Nodup) (hm : inv ∈ ledger) :
    ledger.find? (fun i => i.invoiceNumber == inv.invoiceNumber) = some inv := by
  induction ledger with
  | nil => simp at hm
  | cons i rest ih =>
    have hni : i.invoiceNumber ∉ rest.map Invoice.invoiceNumber := (List.nodup_cons.mp hnd).1
    have hnd2 := (List.nodup_cons.mp hnd).2
    by_cases h : i.invoiceNumber = inv.invoiceNumber
    · rw [List.find?_cons_of_pos _ (by simp [h])]
      rcases List.mem_cons.mp hm with h1 | h1
      · rw [h1]
      · exact absurd (h ▸ List.mem_map_of_mem Invoice.invoiceNumber h1) hni
    · rw [List.find?_cons_of_neg _ (by simp [h])]
      rcases List.mem_cons.mp hm with h1 | h1
      · exact absurd (by rw [h1]) h
      · exact ih hnd2 h1

theorem updateFirstPhone_ne_nil (imei : String) (f : Phone → Phone)
    (ps : List Phone) (h : ps ≠ []) : updateFirstPhone imei f ps ≠ [] := by
  cases ps with
  | nil => exact absurd rfl h
  | cons p rest =>
    unfold updateFirstPhone
    by_cases hp : p.imei == imei
    · rw [if_pos hp]; simp
    · rw [if_neg hp]; simp

/-- C10 (amended): deleting an Available unit that has siblings persists the
invoice without that unit; deleting the last remaining unit deletes the whole
invoice document; and every ledger-writing operation other than the invoice
edit preserves the at-least-one-unit invariant (creation requests carry at
least one unit: route validation enforces `phones.min(1)`). -/
theorem delete_phone_and_nonempty_invariant :
    (∀ ledger imei inv phone,
      findInvoiceByImei ledger imei = some inv →
      getPhoneByIMEI inv imei = some phone →
      phone.status = PhoneStatus.Available →
      ((inv.phones.filter (fun p => !(p.imei == imei))).isEmpty = false →
        deletePhone ledger imei
          = .ok (updateWhere (fun i => i.invoiceNumber == inv.invoiceNumber)
              (fun i => invoicePreSave { i with phones := i.phones.filter (fun p => !(p.imei == imei)) })
              ledger))
      ∧ ((inv.phones.filter (fun p => !(p.imei == imei))).isEmpty = true →
        deletePhone ledger imei
          = .ok (removeWhere (fun i => i.invoiceNumber == inv.invoiceNumber) ledger)))
    ∧ (∀ op ledger l',
        (ledger.map Invoice.invoiceNumber).Nodup →
        (∀ i ∈ ledger, i.phones ≠ []) →
        (∀ req, op = InvoiceOp.create req → req.phones ≠ []) →
        (∀ id patch, op ≠ InvoiceOp.update id patch) →
        applyInvoiceOp op ledger = .ok l' →
        ∀ i ∈ l', i.phones ≠ []) := by
  constructor
  · intro ledger imei inv phone hfind hph hav
    constructor
    · intro hne
      unfold deletePhone
      simp only [hfind, hph]
      rw [if_pos hav, if_neg (by simp [hne])]
    · intro he
      unfold deletePhone
      simp only [hfind, hph]
      rw [if_pos hav, if_pos he]
  · intro op ledger l' hnd hne hreq hnu hok
    cases op with
    | create req =>
      simp only [applyInvoiceOp] at hok
      unfold createPurchaseInvoice at hok
      by_cases hnum : ledger.any (fun i => i.invoiceNumber == req.invoiceNumber)
      · rw [if_pos hnum] at hok; simp at hok
      · rw [if_neg hnum] at hok
        cases hfd : req.phones.find? (fun q => isIMEIDuplicate ledger q.imei) with
        | some q => simp [hfd] at hok
        | none =>
          simp only [hfd] at hok
          injection hok with hok
          subst hok
          intro i hi
          rcases List.mem_append.mp hi with h | h
          · exact hne i h
          · have hieq : i = invoicePreSave
                { invoiceNumber := req.invoiceNumber, phones := req.phones,
                  financials := req.financials, paidAmount := req.paidAmount,
                  invoiceStatus := .Draft, proofUrl := none } := by simpa using h
            subst hieq
            rw [invoicePreSave_phones]
            exact hreq req rfl
    | update id patch => exact absurd rfl (hnu id patch)
    | uploadProof id url =>
      simp only [applyInvoiceOp] at hok
      unfold uploadInvoiceProof at hok
      cases hfind : ledger.find? (fun i => i.invoiceNumber == id) with
      | none => simp [hfind] at hok
      | some inv =>
        simp only [hfind] at hok
        injection hok with hok
        subst hok
        intro i hi
        rcases mem_updateWhere _ _ _ _ hi with h | ⟨b, hb, rfl⟩
        · exact hne i h
        · rw [invoicePreSave_phones]
          exact hne b hb
    | verify id =>
      simp only [applyInvoiceOp] at hok
      unfold verifyInvoice at hok
      cases hfind : ledger.find? (fun i => i.invoiceNumber == id) with
      | none => simp [hfind] at hok
      | some inv =>
        simp only [hfind] at hok
        by_cases hd : inv.invoiceStatus = InvStatus.Draft
        · rw [if_pos hd] at hok
          by_cases hp : proofAttached inv
          · rw [if_pos hp] at hok
            injection hok with hok
            subst hok
            intro i hi
            rcases mem_updateWhere _ _ _ _ hi with h | ⟨b, hb, rfl⟩
            · exact hne i h
            · rw [invoicePreSave_phones]
              exact hne b hb
          · rw [if_neg hp] at hok; simp at hok
        · rw [if_neg hd] at hok; simp at hok
    | cancel id =>
      simp only [applyInvoiceOp] at hok
      unfold deleteInvoice at hok
      cases hfind : ledger.find? (fun i => i.invoiceNumber == id) with
      | none => simp [hfind] at hok
      | some inv =>
        simp only [hfind] at hok
        by_cases hd : inv.invoiceStatus = InvStatus.Draft
        · rw [if_pos hd] at hok
          by_cases hassigned : inv.phones.any (fun p => !(p.status == PhoneStatus.Available))
          · rw [if_pos hassigned] at hok; simp at hok
          · rw [if_neg hassigned] at hok
            injection hok with hok
            subst hok
            intro i hi
            rcases mem_updateWhere _ _ _ _ hi with h | ⟨b, hb, rfl⟩
            · exact hne i h
            · rw [invoicePreSave_phones]
              exact hne b hb
        · rw [if_neg hd] at hok; simp at hok
    | setPhoneStatus imei st soldDate now =>
      simp only [applyInvoiceOp] at hok
      unfold updatePhoneStatus at hok
      cases hfind : findInvoiceByImei ledger imei with
      | none => simp [hfind] at hok
      | some inv =>
        simp only [hfind] at hok
        injection hok with hok
        subst hok
        unfold saveUnitUpdate
        intro i hi
        rcases mem_updateWhere _ _ _ _ hi with h | ⟨b, hb, rfl⟩
        · exact hne i h
        · rw [invoicePreSave_phones]
          exact updateFirstPhone_ne_nil _ _ _ (hne b hb)
    | editPhone imei patch =>
      simp only [applyInvoiceOp] at hok
      unfold updatePhone at hok
      cases hfind : findInvoiceByImei ledger imei with
      | none => simp [hfind] at hok
      | some inv =>
        simp only [hfind] at hok
        cases hph : getPhoneByIMEI inv imei with
        | none => simp [hph] at hok
        | some phone =>
          simp only [hph] at hok
          by_cases hav : phone.status = PhoneStatus.Available ∨ phone.status = PhoneStatus.Damaged
          · rw [if_pos hav] at hok
            injection hok with hok
            subst hok
            unfold saveUnitUpdate
            intro i hi
            rcases mem_updateWhere _ _ _ _ hi with h | ⟨b, hb, rfl⟩
            · exact hne i h
            · rw [invoicePreSave_phones]
              exact updateFirstPhone_ne_nil _ _ _ (hne b hb)
          · rw [if_neg hav] at hok; simp at hok
    | removePhone imei =>
      simp only [applyInvoiceOp] at hok
      unfold deletePhone at hok
      cases hfind : findInvoiceByImei ledger imei with
      | none => simp [hfind] at hok
      | some inv =>
        simp only [hfind] at hok
        cases hph : getPhoneByIMEI inv imei with
        | none => simp [hph] at hok
        | some phone =>
          simp only [hph] at hok
          by_cases hav : phone.status = PhoneStatus.Available
          · rw [if_pos hav] at hok
            by_cases hempty : (inv.phones.filter (fun p => !(p.imei == imei))).isEmpty
            · rw [if_pos hempty] at hok
              injection hok with hok
              subst hok
              intro i hi
              exact hne i (mem_removeWhere _ _ _ hi)
            · rw [if_neg hempty] at hok
              injection hok with hok
              subst hok
              intro i hi
              rcases mem_updateWhere_find? _ _ _ _ hi with h | ⟨b, hb, rfl⟩
              · exact hne i h
              · have hbinv : b = inv := by
                  have hmem : inv ∈ ledger := List.mem_of_find?_eq_some hfind
                  rw [find?_numkey_of_mem_nodup ledger inv hnd hmem] at hb
                  injection hb with hb
                  exact hb.symm
                subst hbinv
                intro hc
                have hc2 : b.phones.filter (fun p => !(p.imei == imei)) = [] := hc
                rw [hc2] at hempty
                simp at hempty
          · rw [if_neg hav] at hok; simp at hok
    | assignUnit imei =>
      simp only [applyInvoiceOp] at hok
      unfold assignUnitLedger at hok
      cases hlk : lookupStatus ledger imei with
      | none => simp [hlk] at hok
      | some st =>
        simp only [hlk] at hok
        by_cases hav : st = PhoneStatus.Available
        · rw [if_pos hav] at hok
          injection hok with hok
          subst hok
          unfold saveUnitUpdate
          intro i hi
          rcases mem_updateWhere _ _ _ _ hi with h | ⟨b, hb, rfl⟩
          · exact hne i h
          · rw [invoicePreSave_phones]
            exact updateFirstPhone_ne_nil _ _ _ (hne b hb)
        · rw [if_neg hav] at hok; simp at hok
    | sellUnit imei soldDate =>
      simp only [applyInvoiceOp] at hok
      unfold sellUnitLedger at hok
      cases hlk : lookupStatus ledger imei with
      | none => simp [hlk] at hok
      | some st =>
        simp only [hlk] at hok
        injection hok with hok
        subst hok
        unfold saveUnitUpdate
        intro i hi
        rcases mem_updateWhere _ _ _ _ hi with h | ⟨b, hb, rfl⟩
        · exact hne i h
        · rw [invoicePreSave_phones]
          exact updateFirstPhone_ne_nil _ _ _ (hne b hb)
    | returnUnit imei =>
      simp only [applyInvoiceOp] at hok
      unfold returnUnitLedger at hok
      cases hlk : lookupStatus ledger imei with
      | none => simp [hlk] at hok
      | some st =>
        simp only [hlk] at hok
        injection hok with hok
        subst hok
        unfold saveUnitUpdate
        intro i hi
        rcases mem_updateWhere _ _ _ _ hi with h | ⟨b, hb, rfl⟩
        · exact hne i h
        · rw [invoicePreSave_phones]
          exact updateFirstPhone_ne_nil _ _ _ (hne b hb)

/-- Witness for C10 at concrete data: deleting the Available unit of the
two-unit invoice keeps the invoice, and the remove-last-unit operation on the
one-unit invoice leaves a ledger whose every invoice is still non-empty. -/
theorem delete_phone_and_nonempty_invariant_witness :
    (deletePhone [sampleMixed] "123456789012345"
      = .ok (updateWhere (fun i => i.invoiceNumber == sampleMixed.invoiceNumber)
          (fun i => invoicePreSave { i with phones := i.phones.filter (fun p => !(p.imei == "123456789012345")) })
          [sampleMixed]))
    ∧ (∀ i ∈ (applyInvoiceOp (.removePhone "123456789012345") [sampleDraft]).toOption.getD [],
        i.phones ≠ []) := by
  constructor
  · exact (delete_phone_and_nonempty_invariant.1 [sampleMixed] "123456789012345"
      sampleMixed samplePhone (by decide) (by decide) (by decide)).1 (by decide)
  · exact delete_phone_and_nonempty_invariant.2 (.removePhone "123456789012345")
      [sampleDraft] _ (by decide)
      (by intro i hi; rw [show i = sampleDraft by simpa using hi]; decide)
      (by intro req hcon; simp at hcon)
      (by intro id patch hcon; simp at hcon)
      rfl

/-- C10 counterexample: the invoice edit accepts an empty unit list and
persists an invoice document with zero phone units. -/
theorem invoice_edit_persists_empty_invoice :
    (updateInvoice [sampleDraft] "INV-001" { phones := some [] }).toOption
      = some [emptyEdited]
    ∧ emptyEdited.phones = [] := by
  refine ⟨by decide, by decide⟩

theorem asgPreSave_phones (a : Assignment) : (asgPreSave a).phones = a.phones := rfl

theorem find?_updateFirstAsgPhone_self (imei : String) (f : AsgPhone → AsgPhone)
    (hf : ∀ p, (f p).imei = p.imei) (ps : List AsgPhone) :
    (updateFirstAsgPhone imei f ps).find? (fun p => p.imei == imei)
      = (ps.find? (fun p => p.imei == imei)).map f := by
  induction ps with
  | nil => simp [updateFirstAsgPhone]
  | cons p rest ih =>
    by_cases h : p.imei = imei
    · have h1 : (updateFirstAsgPhone imei f (p :: rest)) = f p :: rest := by
        simp [updateFirstAsgPhone, h]
      rw [h1, List.find?_cons_of_pos _ (by simp [hf, h]),
        List.find?_cons_of_pos _ (by simp [h])]
      rfl
    · have h1 : (updateFirstAsgPhone imei f (p :: rest))
          = p :: updateFirstAsgPhone imei f rest := by
        simp [updateFirstAsgPhone, h]
      rw [h1, List.find?_cons_of_neg _ (by simp [h]),
        List.find?_cons_of_neg _ (by simp [h]), ih]

theorem find?_updateFirstAsgPhone_ne (imei x : String) (f : AsgPhone → AsgPhone)
    (hf : ∀ p, (f p).imei = p.imei) (hx : x ≠ imei) (ps : List AsgPhone) :
    (updateFirstAsgPhone imei f ps).find? (fun p => p.imei == x)
      = ps.find? (fun p => p.imei == x) := by
  induction ps with
  | nil => simp [updateFirstAsgPhone]
  | cons p rest ih =>
    by_cases h : p.imei = imei
    · have hpx : ¬ p.imei = x := fun hc => hx (hc ▸ h.symm ▸ rfl)
      have h1 : (updateFirstAsgPhone imei f (p :: rest)) = f p :: rest := by
        simp [updateFirstAsgPhone, h]
      rw [h1, List.find?_cons_of_neg _ (by simp [hf, h, Ne.symm hx]),
        List.find?_cons_of_neg _ (by simpa using hpx)]
    · have h1 : (updateFirstAsgPhone imei f (p :: rest))
          = p :: updateFirstAsgPhone imei f rest := by
        simp [updateFirstAsgPhone, h]
      by_cases hpx : p.imei = x
      · rw [h1, List.find?_cons_of_pos _ (by simp [hpx]),
          List.find?_cons_of_pos _ (by simp [hpx])]
      · rw [h1, List.find?_cons_of_neg _ (by simpa using hpx),
          List.find?_cons_of_neg _ (by simpa using hpx), ih]

theorem getPhone_of_findInv (ledger : List Invoice) (imei : String)
    (inv : Invoice) (hfind : findInvoiceByImei ledger imei = some inv) :
    ∃ ph, getPhoneByIMEI inv imei = some ph := by
  have hhas : hasIMEI inv imei = true := by
    have := List.find?_some hfind
    simpa using this
  unfold hasIMEI at hhas
  rw [List.any_eq_true] at hhas
  rcases hhas with ⟨p, hp, hpe⟩
  have : (inv.phones.find? (fun q => q.imei == imei)).isSome :=
    List.find?_isSome.mpr ⟨p, hp, hpe⟩
  rcases Option.isSome_iff_exists.mp this with ⟨ph, hph⟩
  exact ⟨ph, hph⟩

/-- C8: markSold fails with the already-resolved error whenever the named
assignment unit is not Assigned; when it is Assigned the per-assignment unit
and the ledger unit both become Sold and the linked schedule counters gain
one sale, the sold price as revenue, and sold price minus assigned price as
profit. -/
theorem mark_sold_precondition_and_effects (asg : Assignment)
    (ledger : List Invoice) (s : Schedule) (imei : String) (soldPrice : Int)
    (soldDate : Option Nat) (now : Nat) (phone : AsgPhone)
    (hfind : asg.phones.find? (fun p => p.imei == imei) = some phone) :
    (phone.status ≠ AsgPhoneStatus.Assigned →
      markPhoneAsSold asg ledger (some s) imei soldPrice soldDate now
        = .error ⟨400, "Phone is already resolved. Cannot mark as sold."⟩)
    ∧ (phone.status = AsgPhoneStatus.Assigned →
      ∀ inv, findInvoiceByImei ledger imei = some inv →
      ∃ asg' ledger',
        markPhoneAsSold asg ledger (some s) imei soldPrice soldDate now
          = .ok (asg', ledger',
              some { s with performance :=
                { s.performance with
                  phonesSold := s.performance.phonesSold + 1
                  revenue := s.performance.revenue + soldPrice
                  profit := s.performance.profit + (soldPrice - phone.assignedPrice) } })
        ∧ (asg'.phones.find? (fun p => p.imei == imei)).map AsgPhone.status
            = some AsgPhoneStatus.Sold
        ∧ lookupStatus ledger' imei = some PhoneStatus.Sold) := by
  constructor
  · intro hst
    unfold markPhoneAsSold
    simp only [hfind]
    rw [if_neg hst]
  · intro hst inv hinv
    unfold markPhoneAsSold
    simp only [hfind]
    rw [if_pos hst]
    simp only [hinv]
    refine ⟨_, _, rfl, ?_, ?_⟩
    · rw [asgPreSave_phones]
      show ((updateFirstAsgPhone imei (fun p => { p with status := .Sold, soldDate := some (soldDate.getD now), soldPrice := some soldPrice }) asg.phones).find? (fun p => p.imei == imei)).map AsgPhone.status = _
      rw [find?_updateFirstAsgPhone_self imei (fun p => { p with status := .Sold, soldDate := some (soldDate.getD now), soldPrice := some soldPrice }) (fun _ => rfl), hfind]
      rfl
    · rcases getPhone_of_findInv ledger imei inv hinv with ⟨ph, hph⟩
      exact lookupStatus_saveUnitUpdate_self imei (fun p => { p with status := PhoneStatus.Sold, soldDate := some (soldDate.getD now) }) (fun _ => rfl) ledger inv ph hinv hph

/-- Witness for C8 at the concrete scenario of the spec: assigned price 100,
sold price 130, starting counters zero give Sold statuses, revenue 130 and
profit 30 on the schedule. -/
theorem mark_sold_precondition_and_effects_witness :
    ∃ asg' ledger',
      markPhoneAsSold sampleActiveAsg [sampleDraft] (some {}) "123456789012345" 130 none 7
        = .ok (asg', ledger',
            some { performance := { phonesSold := 1, revenue := 130, profit := 30 } })
      ∧ (asg'.phones.find? (fun p => p.imei == "123456789012345")).map AsgPhone.status
          = some AsgPhoneStatus.Sold
      ∧ lookupStatus ledger' "123456789012345" = some PhoneStatus.Sold := by
  have h := (mark_sold_precondition_and_effects sampleActiveAsg [sampleDraft] {}
      "123456789012345" 130 none 7
      { invoiceNumber := "INV-001", imei := "123456789012345",
        assignedPrice := 100, targetPrice := 120, status := AsgPhoneStatus.Assigned }
      (by decide)).2 (by decide) sampleDraft (by decide)
  rcases h with ⟨asg', ledger', heq, h1, h2⟩
  exact ⟨asg', ledger', by simpa using heq, h1, h2⟩

theorem isIMEIDuplicate_saveUnitUpdate (imei x : String) (f : Phone → Phone)
    (hf : ∀ p, (f p).imei = p.imei) (ledger : List Invoice) :
    isIMEIDuplicate (saveUnitUpdate imei f ledger) x = isIMEIDuplicate ledger x := by
  induction ledger with
  | nil => rfl
  | cons i rest ih =>
    unfold saveUnitUpdate updateWhere
    by_cases h : hasIMEI i imei
    · rw [if_pos h]
      unfold isIMEIDuplicate findInvoiceByImei
      have h2 := hasIMEI_update imei x f hf i
      by_cases hix : hasIMEI i x
      · rw [List.find?_cons_of_pos _ (by simp [h2, hix]),
          List.find?_cons_of_pos _ (by simp [hix])]
        rfl
      · rw [List.find?_cons_of_neg _ (by simp [h2, hix]),
          List.find?_cons_of_neg _ (by simp [hix])]
    · rw [if_neg h]
      unfold isIMEIDuplicate findInvoiceByImei
      by_cases hix : hasIMEI i x
      · rw [List.find?_cons_of_pos _ (by simp [hix]),
          List.find?_cons_of_pos _ (by simp [hix])]
      · rw [List.find?_cons_of_neg _ (by simp [hix]),
          List.find?_cons_of_neg _ (by simp [hix])]
        exact ih


theorem returnLoop_spec (notes : String) (now : Nat) :
    ∀ (imeis : List String) (asgPhones : List AsgPhone) (ledger : List Invoice)
      (count : Nat),
    (∀ x ∈ imeis, statusInAsg asgPhones x = some AsgPhoneStatus.Assigned →
        isIMEIDuplicate ledger x = true) →
    ∃ asgPhones2 ledger2 count2,
      returnLoop asgPhones ledger imeis notes now count = (ledger2, .ok (asgPhones2, count2))
      ∧ (∀ x ∈ imeis, statusInAsg asgPhones x = some AsgPhoneStatus.Assigned →
          (∃ p, asgPhones2.find? (fun q => q.imei == x) = some p
            ∧ p.status = AsgPhoneStatus.Returned
            ∧ p.returnedDate = some now ∧ p.returnNotes = some notes)
          ∧ lookupStatus ledger2 x = some PhoneStatus.Available)
      ∧ (∀ x p, asgPhones.find? (fun q => q.imei == x) = some p →
          (p.status = AsgPhoneStatus.Sold ∨ p.status = AsgPhoneStatus.Returned) →
          asgPhones2.find? (fun q => q.imei == x) = some p
          ∧ lookupStatus ledger2 x = lookupStatus ledger x) := by
  intro imeis
  induction imeis with
  | nil =>
    intro asgPhones ledger count _
    exact ⟨asgPhones, ledger, count, rfl, by simp, fun x p hfind _ => ⟨hfind, rfl⟩⟩
  | cons imei rest ih =>
    intro asgPhones ledger count hpres
    unfold returnLoop
    cases hfa : asgPhones.find? (fun p => p.imei == imei) with
    | none =>
      simp only [hfa]
      rcases ih asgPhones ledger count
          (fun x hx => hpres x (List.mem_cons_of_mem _ hx)) with
        ⟨aps2, led2, cnt2, heq, hassigned, hkeep⟩
      refine ⟨aps2, led2, cnt2, heq, ?_, hkeep⟩
      intro x hx hst
      rcases List.mem_cons.mp hx with h1 | h1
      · subst h1
        unfold statusInAsg at hst
        rw [hfa] at hst
        simp at hst
      · exact hassigned x h1 hst
    | some phone =>
      simp only [hfa]
      by_cases hsr : phone.status = AsgPhoneStatus.Sold ∨ phone.status = AsgPhoneStatus.Returned
      · rw [if_pos hsr]
        rcases ih asgPhones ledger count
            (fun x hx => hpres x (List.mem_cons_of_mem _ hx)) with
          ⟨aps2, led2, cnt2, heq, hassigned, hkeep⟩
        refine ⟨aps2, led2, cnt2, heq, ?_, hkeep⟩
        intro x hx hst
        rcases List.mem_cons.mp hx with h1 | h1
        · subst h1
          unfold statusInAsg at hst
          rw [hfa] at hst
          have hps : phone.status = AsgPhoneStatus.Assigned := by simpa using hst
          rcases hsr with h | h <;> rw [hps] at h <;> simp at h
        · exact hassigned x h1 hst
      · rw [if_neg hsr]
        have hassig : phone.status = AsgPhoneStatus.Assigned := by
          cases hps : phone.status
          · rfl
          · exact absurd (Or.inl hps) hsr
          · exact absurd (Or.inr hps) hsr
        have hdup : isIMEIDuplicate ledger imei = true :=
          hpres imei (List.mem_cons_self ..)
            (by unfold statusInAsg; rw [hfa]; simp [hassig])
        unfold isIMEIDuplicate at hdup
        cases hinv : findInvoiceByImei ledger imei with
        | none => rw [hinv] at hdup; simp at hdup
        | some inv =>
          simp only [hinv]
          have hpres1 : ∀ x ∈ rest,
              statusInAsg (updateFirstAsgPhone imei (fun p => { p with status := AsgPhoneStatus.Returned, returnedDate := some now, returnNotes := some notes }) asgPhones) x
                = some AsgPhoneStatus.Assigned →
              isIMEIDuplicate (saveUnitUpdate imei (fun p => { p with status := PhoneStatus.Available }) ledger) x = true := by
            intro x hx hst
            by_cases hxi : x = imei
            · subst hxi
              unfold statusInAsg at hst
              rw [find?_updateFirstAsgPhone_self x (fun p => { p with status := AsgPhoneStatus.Returned, returnedDate := some now, returnNotes := some notes }) (fun _ => rfl), hfa] at hst
              simp at hst
            · unfold statusInAsg at hst
              rw [find?_updateFirstAsgPhone_ne imei x (fun p => { p with status := AsgPhoneStatus.Returned, returnedDate := some now, returnNotes := some notes }) (fun _ => rfl) hxi] at hst
              rw [isIMEIDuplicate_saveUnitUpdate imei x (fun p => { p with status := PhoneStatus.Available }) (fun _ => rfl) ledger]
              exact hpres x (List.mem_cons_of_mem _ hx) hst
          rcases ih (updateFirstAsgPhone imei (fun p => { p with status := AsgPhoneStatus.Returned, returnedDate := some now, returnNotes := some notes }) asgPhones)
              (saveUnitUpdate imei (fun p => { p with status := PhoneStatus.Available }) ledger)
              (count + 1) hpres1 with
            ⟨aps2, led2, cnt2, heq, hassigned, hkeep⟩
          refine ⟨aps2, led2, cnt2, heq, ?_, ?_⟩
          · intro x hx hst
            by_cases hxi : x = imei
            · subst hxi
              have hfind1 : (updateFirstAsgPhone x (fun p => { p with status := AsgPhoneStatus.Returned, returnedDate := some now, returnNotes := some notes }) asgPhones).find? (fun q => q.imei == x)
                  = some { phone with status := AsgPhoneStatus.Returned, returnedDate := some now, returnNotes := some notes } := by
                rw [find?_updateFirstAsgPhone_self x (fun p => { p with status := AsgPhoneStatus.Returned, returnedDate := some now, returnNotes := some notes }) (fun _ => rfl), hfa]
                rfl
              have hk := hkeep x _ hfind1 (Or.inr rfl)
              refine ⟨⟨_, hk.1, rfl, rfl, rfl⟩, ?_⟩
              rw [hk.2]
              rcases getPhone_of_findInv ledger x inv hinv with ⟨ph, hph⟩
              exact lookupStatus_saveUnitUpdate_self x
                (fun p => { p with status := PhoneStatus.Available })
                (fun _ => rfl) ledger inv ph hinv hph
            · rcases List.mem_cons.mp hx with h1 | h1
              · exact absurd h1 hxi
              · have hst1 : statusInAsg (updateFirstAsgPhone imei (fun p => { p with status := AsgPhoneStatus.Returned, returnedDate := some now, returnNotes := some notes }) asgPhones) x
                    = some AsgPhoneStatus.Assigned := by
                  unfold statusInAsg at hst ⊢
                  rw [find?_updateFirstAsgPhone_ne imei x (fun p => { p with status := AsgPhoneStatus.Returned, returnedDate := some now, returnNotes := some notes }) (fun _ => rfl) hxi]
                  exact hst
                exact hassigned x h1 hst1
          · intro x p hfx hp
            have hxi : ¬ x = imei := by
              intro hx
              subst hx
              rw [hfa] at hfx
              injection hfx with hfx
              subst hfx
              exact hsr hp
            have hfx1 : (updateFirstAsgPhone imei (fun p => { p with status := AsgPhoneStatus.Returned, returnedDate := some now, returnNotes := some notes }) asgPhones).find? (fun q => q.imei == x)
                = some p := by
              rw [find?_updateFirstAsgPhone_ne imei x (fun p => { p with status := AsgPhoneStatus.Returned, returnedDate := some now, returnNotes := some notes }) (fun _ => rfl) hxi]
              exact hfx
            have hk := hkeep x p hfx1 hp
            refine ⟨hk.1, ?_⟩
            rw [hk.2]
            exact lookupStatus_saveUnitUpdate_ne imei x hxi (fun p => { p with status := PhoneStatus.Available }) (fun _ => rfl) ledger

/-- C9 (amended): returnUnits fails with a 400 error whenever canReturn is
false (no unit still Assigned and no sale recorded, e.g. a fully returned
assignment); otherwise each requested imei is processed independently: a
still-Assigned unit is set Returned with the date and notes recorded and its
ledger unit reset to Available, while a Sold or already-Returned unit is
silently skipped with both records unchanged. -/
theorem return_units_skip_and_failure (asg : Assignment) (ledger : List Invoice)
    (sched : Option Schedule) (imeis : List String) (notes : String) (now : Nat) :
    (canReturn asg = false →
      returnPhones asg ledger sched imeis notes now
        = (ledger, .error ⟨400, "No phones available to return in this assignment"⟩))
    ∧ (canReturn asg = true →
      (∀ x ∈ imeis, statusInAsg asg.phones x = some AsgPhoneStatus.Assigned →
          isIMEIDuplicate ledger x = true) →
      ∃ ledger2 asg2 sched2,
        returnPhones asg ledger sched imeis notes now = (ledger2, .ok (asg2, sched2))
        ∧ (∀ x ∈ imeis, statusInAsg asg.phones x = some AsgPhoneStatus.Assigned →
            (∃ p, asg2.phones.find? (fun q => q.imei == x) = some p
              ∧ p.status = AsgPhoneStatus.Returned
              ∧ p.returnedDate = some now ∧ p.returnNotes = some notes)
            ∧ lookupStatus ledger2 x = some PhoneStatus.Available)
        ∧ (∀ x p, asg.phones.find? (fun q => q.imei == x) = some p →
            (p.status = AsgPhoneStatus.Sold ∨ p.status = AsgPhoneStatus.Returned) →
            asg2.phones.find? (fun q => q.imei == x) = some p
            ∧ lookupStatus ledger2 x = lookupStatus ledger x)) := by
  constructor
  · intro hcr
    unfold returnPhones
    rw [if_neg (by simp [hcr])]
  · intro hcr hpres
    unfold returnPhones
    rw [if_pos hcr]
    rcases returnLoop_spec notes now imeis asg.phones ledger 0 hpres with
      ⟨aps2, led2, cnt2, heq, hassigned, hkeep⟩
    simp only [heq]
    exact ⟨led2, _, _, rfl, hassigned, hkeep⟩

/-- Witness for C9: returning the still-assigned sample unit succeeds and
resets the ledger status to Available with the return recorded. -/
theorem return_units_skip_and_failure_witness :
    canReturn sampleActiveAsg = true
    ∧ (∃ ledger2 asg2 sched2,
        returnPhones sampleActiveAsg [sampleDraft] none ["123456789012345"] "end of day" 9
          = (ledger2, .ok (asg2, sched2))
        ∧ (∀ x ∈ ["123456789012345"],
            statusInAsg sampleActiveAsg.phones x = some AsgPhoneStatus.Assigned →
            (∃ p, asg2.phones.find? (fun q => q.imei == x) = some p
              ∧ p.status = AsgPhoneStatus.Returned
              ∧ p.returnedDate = some 9 ∧ p.returnNotes = some "end of day")
            ∧ lookupStatus ledger2 x = some PhoneStatus.Available)
        ∧ (∀ x p, sampleActiveAsg.phones.find? (fun q => q.imei == x) = some p →
            (p.status = AsgPhoneStatus.Sold ∨ p.status = AsgPhoneStatus.Returned) →
            asg2.phones.find? (fun q => q.imei == x) = some p
            ∧ lookupStatus ledger2 x = lookupStatus [sampleDraft] x)) :=
  ⟨by decide,
    (return_units_skip_and_failure sampleActiveAsg [sampleDraft] none
      ["123456789012345"] "end of day" 9).2 (by decide) (by decide)⟩

/-- C9 counterexample: on an assignment whose only unit is already Returned,
canReturn is false and the call FAILS with a 400 error instead of being the
partial success the claim promises for every assignment and imei list. -/
theorem return_units_fails_on_fully_returned :
    returnPhones sampleReturnedAsg [sampleDraft] none ["123456789012345"] "second try" 5
      = ([sampleDraft],
         .error ⟨400, "No phones available to return in this assignment"⟩) := rfl

theorem lookupStatus_decomp (ledger : List Invoice) (imei : String)
    (st : PhoneStatus) (h : lookupStatus ledger imei = some st) :
    ∃ inv ph, findInvoiceByImei ledger imei = some inv
      ∧ getPhoneByIMEI inv imei = some ph ∧ ph.status = st := by
  unfold lookupStatus at h
  cases hf : findInvoiceByImei ledger imei with
  | none => rw [hf] at h; simp at h
  | some inv =>
    rw [hf] at h
    simp only [Option.some_bind] at h
    cases hg : getPhoneByIMEI inv imei with
    | none => rw [hg] at h; simp at h
    | some ph =>
      rw [hg] at h
      exact ⟨inv, ph, rfl, hg, by simpa using h⟩

/-- C1 (amended): createAssignment is not atomic. It validates and persists
each requested unit in request order, saving the invoice per unit; when a
later unit fails validation, the operation fails but every earlier unit has
already been flipped Available to Assigned in the persisted ledger. -/
theorem assignment_creation_partial_on_failure (ledger : List Invoice)
    (sched : Schedule) (r1 r2 : PhoneReq) (inv1 : Invoice) (ph1 : Phone)
    (st2 : PhoneStatus)
    (h1 : findInvoiceByImei ledger r1.imei = some inv1)
    (hp1 : getPhoneByIMEI inv1 r1.imei = some ph1)
    (hav1 : ph1.status = PhoneStatus.Available)
    (hne : r2.imei ≠ r1.imei)
    (h2 : lookupStatus ledger r2.imei = some st2)
    (hst2 : st2 ≠ PhoneStatus.Available)
    (hsched : sched.hasAssignment = false) :
    (createAssignment "dsr" (some sched) ledger [r1, r2]).2.2
      = .error ⟨400, "Phone with IMEI " ++ r2.imei ++ " is not available"⟩
    ∧ lookupStatus (createAssignment "dsr" (some sched) ledger [r1, r2]).1 r1.imei
        = some PhoneStatus.Assigned := by
  have h2b : lookupStatus
      (saveUnitUpdate r1.imei (fun p => { p with status := PhoneStatus.Assigned }) ledger)
      r2.imei = some st2 := by
    rw [lookupStatus_saveUnitUpdate_ne r1.imei r2.imei hne
      (fun p => { p with status := PhoneStatus.Assigned }) (fun _ => rfl) ledger]
    exact h2
  rcases lookupStatus_decomp _ _ _ h2b with ⟨inv2, ph2, hf2, hg2, hs2⟩
  have hloop : assignPhones ledger [r1, r2] []
      = (saveUnitUpdate r1.imei (fun p => { p with status := PhoneStatus.Assigned }) ledger,
         .error ⟨400, "Phone with IMEI " ++ r2.imei ++ " is not available"⟩) := by
    unfold assignPhones
    simp only [h1, hp1]
    rw [if_pos hav1]
    unfold assignPhones
    simp only [hf2, hg2]
    rw [if_neg (by rw [hs2]; exact hst2)]
  unfold createAssignment
  rw [if_neg (by decide)]
  simp only [Option.getD_some]
  rw [if_neg (by simp [hsched])]
  simp only [hloop]
  refine ⟨by trivial, ?_⟩
  exact lookupStatus_saveUnitUpdate_self r1.imei
    (fun p => { p with status := PhoneStatus.Assigned }) (fun _ => rfl)
    ledger inv1 ph1 h1 hp1

/-- Witness for C1 at the two-unit invoice: assigning the Available unit and
the already-Assigned unit fails, and the Available unit is left Assigned. -/
theorem assignment_creation_partial_on_failure_witness :
    (createAssignment "dsr" (some {}) [sampleMixed]
        [{ imei := "123456789012345" }, { imei := "333333333333333" }]).2.2
      = .error ⟨400, "Phone with IMEI " ++ "333333333333333" ++ " is not available"⟩
    ∧ lookupStatus (createAssignment "dsr" (some {}) [sampleMixed]
        [{ imei := "123456789012345" }, { imei := "333333333333333" }]).1 "123456789012345"
      = some PhoneStatus.Assigned :=
  assignment_creation_partial_on_failure [sampleMixed] {}
    { imei := "123456789012345" } { imei := "333333333333333" }
    sampleMixed samplePhone PhoneStatus.Assigned
    (by decide) (by decide) (by decide) (by decide) (by decide) (by decide) (by decide)

/-- C1 counterexample: a concrete input on which createAssignment fails with
the unavailability error yet the first requested unit has already changed
from Available to Assigned in the persisted ledger. -/
theorem assignment_creation_partial_effect_example :
    ((createAssignment "dsr" (some {}) [sampleMixed]
        [{ imei := "123456789012345" }, { imei := "333333333333333" }]).2.2
      = .error ⟨400, "Phone with IMEI 333333333333333 is not available"⟩)
    ∧ lookupStatus (createAssignment "dsr" (some {}) [sampleMixed]
        [{ imei := "123456789012345" }, { imei := "333333333333333" }]).1 "123456789012345"
      = some PhoneStatus.Assigned := by
  constructor
  · rfl
  · rfl

/-- C3 (amended): the Available check and the Assigned write of
createAssignment are two separate awaited store operations, not one atomic
conditional update; under the interleaving in which both requests read before
either writes, two concurrent assignment requests naming the same Available
imei BOTH succeed. -/
theorem race_interleaving_both_succeed (ledger : List Invoice) (imei : String)
    (h : lookupStatus ledger imei = some PhoneStatus.Available) :
    ((runRace [RaceStep.read1, RaceStep.read2, RaceStep.write1, RaceStep.write2]
        { ledger := ledger, req1 := { imei := imei }, req2 := { imei := imei } }).req1.succeeded
      = some true)
    ∧ ((runRace [RaceStep.read1, RaceStep.read2, RaceStep.write1, RaceStep.write2]
        { ledger := ledger, req1 := { imei := imei }, req2 := { imei := imei } }).req2.succeeded
      = some true) := by
  unfold runRace
  simp only [List.foldl]
  unfold raceStep raceRead raceWrite
  simp [h]

/-- Witness for C3 on the singleton sample ledger. -/
theorem race_interleaving_both_succeed_witness :
    lookupStatus [sampleDraft] "123456789012345" = some PhoneStatus.Available
    ∧ (((runRace [RaceStep.read1, RaceStep.read2, RaceStep.write1, RaceStep.write2]
        { ledger := [sampleDraft], req1 := { imei := "123456789012345" },
          req2 := { imei := "123456789012345" } }).req1.succeeded = some true)
      ∧ ((runRace [RaceStep.read1, RaceStep.read2, RaceStep.write1, RaceStep.write2]
        { ledger := [sampleDraft], req1 := { imei := "123456789012345" },
          req2 := { imei := "123456789012345" } }).req2.succeeded = some true)) :=
  ⟨by decide,
    race_interleaving_both_succeed [sampleDraft] "123456789012345" (by decide)⟩

/-- C3 counterexample: a concrete interleaved execution of two requests on
the same Available imei in which both requests succeed, so exactly-one-success
does not hold of the read-check-write implementation. -/
theorem race_both_succeed_example :
    ((runRace [RaceStep.read1, RaceStep.read2, RaceStep.write1, RaceStep.write2]
        { ledger := [sampleWithProof], req1 := { imei := "123456789012345" },
          req2 := { imei := "123456789012345" } }).req1.succeeded = some true)
    ∧ ((runRace [RaceStep.read1, RaceStep.read2, RaceStep.write1, RaceStep.write2]
        { ledger := [sampleWithProof], req1 := { imei := "123456789012345" },
          req2 := { imei := "123456789012345" } }).req2.succeeded = some true) := by
  constructor
  · rfl
  · rfl

theorem invoicePreSave_financials_congr (a b : Invoice)
    (hc : sumCost a.phones = sumCost b.phones)
    (hs : sumSelling a.phones = sumSelling b.phones)
    (ht : a.financials.taxAmount = b.financials.taxAmount)
    (hd : a.financials.discountAmount = b.financials.discountAmount)
    (hsh : a.financials.shippingCost = b.financials.shippingCost) :
    (invoicePreSave a).financials = (invoicePreSave b).financials := by
  rw [invoicePreSave_financials, invoicePreSave_financials, hc, hs, ht, hd, hsh]

/-- C6: taking an Available unit through assignment creation (ledger status
Available to Assigned) and then returning it restores the ledger status to
Available, and the owning invoice ends with exactly the financial aggregate
it had before the assignment was created. -/
theorem assign_return_round_trip (ledger : List Invoice) (sched : Schedule)
    (r : PhoneReq) (inv : Invoice) (ph : Phone) (notes : String) (now : Nat)
    (h1 : findInvoiceByImei ledger r.imei = some inv)
    (hp1 : getPhoneByIMEI inv r.imei = some ph)
    (hav : ph.status = PhoneStatus.Available)
    (hcons : financiallyConsistent inv)
    (hsched : sched.hasAssignment = false) :
    ∃ ledger1 sched1 asg1,
      createAssignment "dsr" (some sched) ledger [r] = (ledger1, some sched1, .ok asg1)
      ∧ lookupStatus ledger1 r.imei = some PhoneStatus.Assigned
      ∧ ∃ ledger2 asg2 sched2,
          returnPhones asg1 ledger1 (some sched1) [r.imei] notes now
            = (ledger2, .ok (asg2, sched2))
          ∧ lookupStatus ledger2 r.imei = some PhoneStatus.Available
          ∧ (findInvoiceByImei ledger2 r.imei).map Invoice.financials
              = some inv.financials := by
  have hloop : assignPhones ledger [r] []
      = (saveUnitUpdate r.imei (fun p => { p with status := PhoneStatus.Assigned }) ledger,
         .ok [mkAsgPhone inv ph r]) := by
    unfold assignPhones
    simp only [h1, hp1]
    rw [if_pos hav]
    rfl
  have heqA : createAssignment "dsr" (some sched) ledger [r]
      = (saveUnitUpdate r.imei (fun p => { p with status := PhoneStatus.Assigned }) ledger,
         some { sched with
                hasAssignment := true
                performance := { sched.performance with phonesAssigned := 1 } },
         .ok (asgPreSave { phones := [mkAsgPhone inv ph r] })) := by
    unfold createAssignment
    rw [if_neg (by decide)]
    simp only [Option.getD_some]
    rw [if_neg (by simp [hsched])]
    simp only [hloop]
    rfl
  have hlookup1 : lookupStatus
      (saveUnitUpdate r.imei (fun p => { p with status := PhoneStatus.Assigned }) ledger)
      r.imei = some PhoneStatus.Assigned :=
    lookupStatus_saveUnitUpdate_self r.imei
      (fun p => { p with status := PhoneStatus.Assigned }) (fun _ => rfl)
      ledger inv ph h1 hp1
  have hinv1 : findInvoiceByImei
      (saveUnitUpdate r.imei (fun p => { p with status := PhoneStatus.Assigned }) ledger)
      r.imei
      = some (invoicePreSave { inv with
          phones := updateFirstPhone r.imei (fun p => { p with status := PhoneStatus.Assigned }) inv.phones }) :=
    findInv_saveUnitUpdate_self r.imei
      (fun p => { p with status := PhoneStatus.Assigned }) (fun _ => rfl) ledger inv h1
  have hph1 : getPhoneByIMEI
      (invoicePreSave { inv with
        phones := updateFirstPhone r.imei (fun p => { p with status := PhoneStatus.Assigned }) inv.phones })
      r.imei = some { ph with status := PhoneStatus.Assigned } := by
    unfold getPhoneByIMEI
    rw [invoicePreSave_phones]
    show (updateFirstPhone r.imei (fun p => { p with status := PhoneStatus.Assigned }) inv.phones).find?
        (fun p => p.imei == r.imei) = _
    rw [find?_updateFirstPhone_self r.imei
      (fun p => { p with status := PhoneStatus.Assigned }) (fun _ => rfl),
      show List.find? (fun p => p.imei == r.imei) inv.phones = some ph from hp1]
    rfl
  have himei : ph.imei = r.imei := by
    have := List.find?_some hp1
    simpa using this
  have hcan : canReturn (asgPreSave { phones := [mkAsgPhone inv ph r] }) = true := rfl
  have hfind_ap : ([mkAsgPhone inv ph r].find? (fun p => p.imei == r.imei))
      = some (mkAsgPhone inv ph r) :=
    List.find?_cons_of_pos _ (by simp [mkAsgPhone, himei])
  have hloop2 : returnLoop [mkAsgPhone inv ph r]
      (saveUnitUpdate r.imei (fun p => { p with status := PhoneStatus.Assigned }) ledger)
      [r.imei] notes now 0
      = (saveUnitUpdate r.imei (fun p => { p with status := PhoneStatus.Available })
          (saveUnitUpdate r.imei (fun p => { p with status := PhoneStatus.Assigned }) ledger),
         .ok (updateFirstAsgPhone r.imei
           (fun p => { p with status := AsgPhoneStatus.Returned, returnedDate := some now, returnNotes := some notes })
           [mkAsgPhone inv ph r], 1)) := by
    unfold returnLoop
    simp only [hfind_ap]
    rw [if_neg (by simp [mkAsgPhone])]
    simp only [hinv1]
    rfl
  have hphones : (asgPreSave { phones := [mkAsgPhone inv ph r] }).phones
      = [mkAsgPhone inv ph r] := rfl
  have heqB : returnPhones (asgPreSave { phones := [mkAsgPhone inv ph r] })
      (saveUnitUpdate r.imei (fun p => { p with status := PhoneStatus.Assigned }) ledger)
      (some { sched with
              hasAssignment := true
              performance := { sched.performance with phonesAssigned := 1 } })
      [r.imei] notes now
      = (saveUnitUpdate r.imei (fun p => { p with status := PhoneStatus.Available })
          (saveUnitUpdate r.imei (fun p => { p with status := PhoneStatus.Assigned }) ledger),
         .ok (asgPreSave { asgPreSave { phones := [mkAsgPhone inv ph r] } with
                phones := updateFirstAsgPhone r.imei
                  (fun p => { p with status := AsgPhoneStatus.Returned, returnedDate := some now, returnNotes := some notes })
                  [mkAsgPhone inv ph r]
                returnDate := some now
                returnNotes := some notes },
              some { sched with
                     hasAssignment := true
                     performance := { sched.performance with phonesAssigned := 1, phonesReturned := sched.performance.phonesReturned + 1 } })) := by
    unfold returnPhones
    rw [if_pos hcan, hphones]
    simp only [hloop2]
    rfl
  have hinv2 : findInvoiceByImei
      (saveUnitUpdate r.imei (fun p => { p with status := PhoneStatus.Available })
        (saveUnitUpdate r.imei (fun p => { p with status := PhoneStatus.Assigned }) ledger))
      r.imei
      = some (invoicePreSave
          { invoicePreSave { inv with
              phones := updateFirstPhone r.imei (fun p => { p with status := PhoneStatus.Assigned }) inv.phones } with
            phones := updateFirstPhone r.imei (fun p => { p with status := PhoneStatus.Available })
              (invoicePreSave { inv with
                phones := updateFirstPhone r.imei (fun p => { p with status := PhoneStatus.Assigned }) inv.phones }).phones }) :=
    findInv_saveUnitUpdate_self r.imei
      (fun p => { p with status := PhoneStatus.Available }) (fun _ => rfl) _ _ hinv1
  have hlookup2 : lookupStatus
      (saveUnitUpdate r.imei (fun p => { p with status := PhoneStatus.Available })
        (saveUnitUpdate r.imei (fun p => { p with status := PhoneStatus.Assigned }) ledger))
      r.imei = some PhoneStatus.Available :=
    lookupStatus_saveUnitUpdate_self r.imei
      (fun p => { p with status := PhoneStatus.Available }) (fun _ => rfl)
      _ _ { ph with status := PhoneStatus.Assigned } hinv1 hph1
  have hc : sumCost (updateFirstPhone r.imei (fun p => { p with status := PhoneStatus.Available })
      (invoicePreSave { inv with
        phones := updateFirstPhone r.imei (fun p => { p with status := PhoneStatus.Assigned }) inv.phones }).phones)
      = sumCost inv.phones := by
    rw [sumCost_updateFirstPhone r.imei
      (fun p => { p with status := PhoneStatus.Available }) (fun _ => rfl)]
    rw [invoicePreSave_phones]
    show sumCost (updateFirstPhone r.imei (fun p => { p with status := PhoneStatus.Assigned }) inv.phones) = _
    rw [sumCost_updateFirstPhone r.imei
      (fun p => { p with status := PhoneStatus.Assigned }) (fun _ => rfl)]
  have hs : sumSelling (updateFirstPhone r.imei (fun p => { p with status := PhoneStatus.Available })
      (invoicePreSave { inv with
        phones := updateFirstPhone r.imei (fun p => { p with status := PhoneStatus.Assigned }) inv.phones }).phones)
      = sumSelling inv.phones := by
    rw [sumSelling_updateFirstPhone r.imei
      (fun p => { p with status := PhoneStatus.Available }) (fun _ => rfl)]
    rw [invoicePreSave_phones]
    show sumSelling (updateFirstPhone r.imei (fun p => { p with status := PhoneStatus.Assigned }) inv.phones) = _
    rw [sumSelling_updateFirstPhone r.imei
      (fun p => { p with status := PhoneStatus.Assigned }) (fun _ => rfl)]
  have hfin : (invoicePreSave
      { invoicePreSave { inv with
          phones := updateFirstPhone r.imei (fun p => { p with status := PhoneStatus.Assigned }) inv.phones } with
        phones := updateFirstPhone r.imei (fun p => { p with status := PhoneStatus.Available })
          (invoicePreSave { inv with
            phones := updateFirstPhone r.imei (fun p => { p with status := PhoneStatus.Assigned }) inv.phones }).phones }).financials
      = inv.financials := by
    have hcg := invoicePreSave_financials_congr
      { invoicePreSave { inv with
          phones := updateFirstPhone r.imei (fun p => { p with status := PhoneStatus.Assigned }) inv.phones } with
        phones := updateFirstPhone r.imei (fun p => { p with status := PhoneStatus.Available })
          (invoicePreSave { inv with
            phones := updateFirstPhone r.imei (fun p => { p with status := PhoneStatus.Assigned }) inv.phones }).phones }
      inv hc hs rfl rfl rfl
    rw [hcg]
    exact congrArg Invoice.financials hcons
  refine ⟨_, _, _, heqA, hlookup1, _, _, _, heqB, hlookup2, ?_⟩
  exact (congrArg (Option.map Invoice.financials) hinv2).trans (congrArg some hfin)

/-- Witness for C6 at the sample data: the round trip on the sample unit goes
Available, Assigned, Available and leaves the invoice financials equal. -/
theorem assign_return_round_trip_witness :
    financiallyConsistent sampleDraft
    ∧ ∃ ledger1 sched1 asg1,
        createAssignment "dsr" (some {}) [sampleDraft] [{ imei := "123456789012345" }]
          = (ledger1, some sched1, .ok asg1)
        ∧ lookupStatus ledger1 "123456789012345" = some PhoneStatus.Assigned
        ∧ ∃ ledger2 asg2 sched2,
            returnPhones asg1 ledger1 (some sched1) ["123456789012345"] "evening return" 8
              = (ledger2, .ok (asg2, sched2))
            ∧ lookupStatus ledger2 "123456789012345" = some PhoneStatus.Available
            ∧ (findInvoiceByImei ledger2 "123456789012345").map Invoice.financials
                = some sampleDraft.financials :=
  ⟨by unfold financiallyConsistent; decide,
    assign_return_round_trip [sampleDraft] {} { imei := "123456789012345" }
      sampleDraft samplePhone "evening return" 8
      (by decide) (by decide) (by decide)
      (by unfold financiallyConsistent; decide) (by decide)⟩

/-- Witness for C5: a request reusing the sample imei fails with a 400
conflict error, and a fresh-imei creation on the singleton ledger preserves
cross-invoice uniqueness. -/
theorem global_imei_uniqueness_witness :
    (∃ e, createPurchaseInvoice [sampleDraft] dupReq = .error e ∧ e.statusCode = 400)
    ∧ GlobalImeiUnique ((createPurchaseInvoice [sampleDraft] freshReq).toOption.getD []) := by
  constructor
  · exact (global_imei_uniqueness [sampleDraft] dupReq).1
      ⟨samplePhone, by decide, by decide⟩
  · exact (global_imei_uniqueness [sampleDraft] freshReq).2
      (by unfold GlobalImeiUnique; decide) _ rfl

end MPDS
